import Mathlib

/-!
Verification of the numerical solvers of the robot-analyzer engine
(src/src/utils/solvers.ts and the ray-casting workspace sampler).

The JavaScript code is embedded shallowly:

* the max-torque sampler and the damped-least-squares IK solver perform only
  field arithmetic, so they are embedded over the exact rationals;
* the Fibonacci-sphere ray generator and the QuickHull convex-hull code use
  Math.sqrt / Math.cos / Math.sin, so they are embedded over the reals.

JavaScript decimal literals are read as the rational numbers they denote;
the constant Math.PI is embedded as the exact value of the IEEE-754 double
that JavaScript stores for it.  External WASM routines (pin.rnea, the
forward-kinematics / Jacobian queries) are not part of this repository and
enter the embedding as explicit function parameters.
-/

set_option maxHeartbeats 2000000
set_option maxRecDepth 8000

namespace RobotAnalyzer

/-! ## Max-torque sampler (sampleMaxTorques, solvers.ts lines 279-440)

Embedded over the rationals.  The ambient global Math.random generator is
modelled as an explicit stream rng : Nat -> Rat of draws, consumed in call
order; phase 2 performs one draw per (sample i, joint j), i.e. draw number
i * numJoints + j.
-/

/-- The exact value of the IEEE-754 double JavaScript uses for Math.PI. -/
def mathPi : ℚ := 884279719003555 / 281474976710656

/-- The joint-limit and name information the sampler reads
(robotInfo.lowerLimits / upperLimits / jointNames); a missing (undefined
or null) limit is modelled as none. -/
structure RobotInfo where
  lowerLimits : List (Option ℚ)
  upperLimits : List (Option ℚ)
  jointNames : List String

/-- robotInfo.lowerLimits[j] !== undefined && !== null ? lowerLimits[j] : -Math.PI
(an out-of-range index reads undefined, hence the default). -/
def effLower (info : RobotInfo) (j : ℕ) : ℚ :=
  (info.lowerLimits.getD j none).getD (-mathPi)

/-- robotInfo.upperLimits[j] !== undefined && !== null ? upperLimits[j] : Math.PI -/
def effUpper (info : RobotInfo) (j : ℕ) : ℚ :=
  (info.upperLimits.getD j none).getD mathPi

/-- Builds the length-nv velocity (resp. acceleration) Float64Array from the
caller argument: a scalar is broadcast to all nv entries; an array fills the
first min(nv, length) entries, the rest staying 0. -/
def fillFromSpec (nv : ℕ) : ℚ ⊕ List ℚ → List ℚ
  | Sum.inl c => List.replicate nv c
  | Sum.inr l => (List.range nv).map (fun i => if i < l.length then l.getD i 0 else 0)

/-- Contents of the v_sample Float64Array at every evaluateTorque call: each
phase iteration writes v_sample[j] = velocity[j] for all j < numJoints
(writes at j >= nv are ignored by the typed array), entries beyond numJoints
keep their initial 0. -/
def vSampleVec (nv numJoints : ℕ) (velocity : List ℚ) : List ℚ :=
  (List.range nv).map (fun j => if j < numJoints then velocity.getD j 0 else 0)

/-- Contents of the q_sample Float64Array after one phase iteration writes
coordinate coord j into slot j for every j < numJoints.  The array has
length nv and out-of-range writes are ignored (Float64Array semantics,
matched by List.set); slots beyond numJoints keep their initial 0. -/
def buildConfig (nv numJoints : ℕ) (coord : ℕ → ℚ) : List ℚ :=
  (List.range numJoints).foldl (fun q j => q.set j (coord j)) (List.replicate nv 0)

/-- Phase 1 corner coordinate: joints among the first 6 follow the mask bit
((mask >> j) & 1 selects upper), all others sit at the lower limit. -/
def cornerCoord (info : RobotInfo) (mask j : ℕ) : ℚ :=
  if j < 6 ∧ Nat.testBit mask j then effUpper info j else effLower info j

/-- Phase 2 stratified coordinate for sample i, joint j:
step = (upper - lower) / 10, interval = floor(i / (300 / 10)),
coordinate = lower + interval * step + (Math.random() - 0.5) * step. -/
def gridCoord (info : RobotInfo) (numJoints : ℕ) (rng : ℕ → ℚ) (i j : ℕ) : ℚ :=
  let lower := effLower info j
  let upper := effUpper info j
  let step := (upper - lower) / 10
  lower + ((i / 30 : ℕ) : ℚ) * step + (rng (i * numJoints + j) - 1/2) * step

/-- The 12 phase-3 pattern names, in source order. -/
def extremePatterns : List String :=
  ["all_min", "all_max", "alternating_even_min", "alternating_odd_min",
   "all_25_percent", "all_50_percent", "all_75_percent",
   "alternating_25_75", "alternating_75_25", "thirds_1", "thirds_2", "thirds_3"]

/-- Phase 3 coordinate for one pattern name, exactly the if-chain of the source. -/
def extremeCoord (info : RobotInfo) (extreme : String) (j : ℕ) : ℚ :=
  let lower := effLower info j
  let upper := effUpper info j
  let range := upper - lower
  if extreme = "all_min" then lower
  else if extreme = "all_max" then upper
  else if extreme = "alternating_even_min" then (if j % 2 = 0 then lower else upper)
  else if extreme = "alternating_odd_min" then (if j % 2 = 0 then upper else lower)
  else if extreme = "all_25_percent" then lower + range * (25/100)
  else if extreme = "all_50_percent" then lower + range * (50/100)
  else if extreme = "all_75_percent" then lower + range * (75/100)
  else if extreme = "alternating_25_75" then
    (if j % 2 = 0 then lower + range * (25/100) else lower + range * (75/100))
  else if extreme = "alternating_75_25" then
    (if j % 2 = 0 then lower + range * (75/100) else lower + range * (25/100))
  else if extreme = "thirds_1" then lower + range * (if j % 3 = 0 then 1 else 0)
  else if extreme = "thirds_2" then lower + range * (if j % 3 = 1 then 1 else 0)
  else if extreme = "thirds_3" then lower + range * (if j % 3 = 2 then 1 else 0)
  else lower

/-- The phase-1 corner configurations, in evaluation order
(2 ^ min(numJoints, 6) masks). -/
def cornerConfigs (info : RobotInfo) (nv numJoints : ℕ) : List (List ℚ) :=
  (List.range (2 ^ min numJoints 6)).map
    (fun mask => buildConfig nv numJoints (cornerCoord info mask))

/-- The 300 phase-2 stratified-grid configurations, in evaluation order. -/
def gridConfigs (info : RobotInfo) (nv numJoints : ℕ) (rng : ℕ → ℚ) : List (List ℚ) :=
  (List.range 300).map (fun i => buildConfig nv numJoints (gridCoord info numJoints rng i))

/-- The 12 phase-3 pattern configurations, in evaluation order. -/
def extremeConfigs (info : RobotInfo) (nv numJoints : ℕ) : List (List ℚ) :=
  extremePatterns.map (fun e => buildConfig nv numJoints (extremeCoord info e))

/-- All configurations passed to evaluateTorque, in evaluation order:
corners, then stratified grid, then fixed patterns.  (Each phase iteration
rewrites every slot j < numJoints of the shared q_sample buffer and never
touches the remaining slots, so the buffer content at each call is exactly
the per-iteration configuration and carries no state between iterations.) -/
def sampledConfigs (info : RobotInfo) (nv numJoints : ℕ) (rng : ℕ → ℚ) : List (List ℚ) :=
  cornerConfigs info nv numJoints ++ gridConfigs info nv numJoints rng
    ++ extremeConfigs info nv numJoints

lemma sampledConfigs_eq (info : RobotInfo) (nv numJoints : ℕ) (rng : ℕ → ℚ) :
    sampledConfigs info nv numJoints rng =
      cornerConfigs info nv numJoints ++ gridConfigs info nv numJoints rng
        ++ extremeConfigs info nv numJoints := rfl

/- sampledConfigs is a 314-element list; keeping it irreducible stops the
elaborator from ever evaluating the sampling fold during unification. -/
attribute [irreducible] sampledConfigs

/-- One iteration of evaluateTorque's inner loop for joint index j: reads
tau[j] (an out-of-range read yields NaN, and NaN > max is false, so no
update), and when abs(tau[j]) improves on max_torques[j] it stores the new
maximum and copies the first numJoints slots of q into maxTorqueConfig. -/
def torqueUpdate (tau q : List ℚ) (numJoints : ℕ)
    (st : List ℚ × List ℚ) (j : ℕ) : List ℚ × List ℚ :=
  match tau.get? j with
  | none => st
  | some t =>
      if |t| > st.1.getD j 0 then
        (st.1.set j |t|, (List.range numJoints).map (fun k => q.getD k 0))
      else st

/-- The evaluateTorque closure: run rnea on the configuration with the
shared v_sample / acceleration buffers and fold the per-joint max update. -/
def evaluateTorque (rnea : List ℚ → List ℚ → List ℚ → List ℚ)
    (vSample accel : List ℚ) (numJoints : ℕ)
    (st : List ℚ × List ℚ) (q : List ℚ) : List ℚ × List ℚ :=
  let tau := rnea q vSample accel
  (List.range numJoints).foldl (torqueUpdate tau q numJoints) st

/-- Result record of sampleMaxTorques. -/
structure MaxTorqueResult where
  max_torques : List ℚ
  current_gravity_torques : List ℚ
  joint_names : List String
  maxTorqueConfig : List ℚ

/-- sampleMaxTorques (solvers.ts lines 279-440).  The external pin.rnea WASM
call is the parameter rnea (a function of (q, v, a)); model.nv is nv; the
global Math.random stream used by phase 2 is the explicit parameter rng. -/
def sampleMaxTorques (rnea : List ℚ → List ℚ → List ℚ → List ℚ) (nv : ℕ)
    (positions : List ℚ) (info : RobotInfo)
    (jointVelocities jointAccelerations : ℚ ⊕ List ℚ) (rng : ℕ → ℚ) : MaxTorqueResult :=
  let numJoints := positions.length
  let velocity := fillFromSpec nv jointVelocities
  let acceleration := fillFromSpec nv jointAccelerations
  let tauCurrent := rnea positions velocity acceleration
  let vs := vSampleVec nv numJoints velocity
  let st := (sampledConfigs info nv numJoints rng).foldl
      (evaluateTorque rnea vs acceleration numJoints)
      (List.replicate numJoints 0, List.replicate numJoints 0)
  { max_torques := st.1
    current_gravity_torques := tauCurrent
    joint_names := info.jointNames
    maxTorqueConfig := st.2 }

/-- Definitional unfolding of sampleMaxTorques (kept symbolic so that later
proofs never force evaluation of the 314-element sampling fold). -/
lemma sampleMaxTorques_unfold (rnea : List ℚ → List ℚ → List ℚ → List ℚ) (nv : ℕ)
    (positions : List ℚ) (info : RobotInfo)
    (jv ja : ℚ ⊕ List ℚ) (rng : ℕ → ℚ) :
    sampleMaxTorques rnea nv positions info jv ja rng =
      { max_torques := ((sampledConfigs info nv positions.length rng).foldl
          (evaluateTorque rnea (vSampleVec nv positions.length (fillFromSpec nv jv))
            (fillFromSpec nv ja) positions.length)
          (List.replicate positions.length 0, List.replicate positions.length 0)).1
        current_gravity_torques := rnea positions (fillFromSpec nv jv) (fillFromSpec nv ja)
        joint_names := info.jointNames
        maxTorqueConfig := ((sampledConfigs info nv positions.length rng).foldl
          (evaluateTorque rnea (vSampleVec nv positions.length (fillFromSpec nv jv))
            (fillFromSpec nv ja) positions.length)
          (List.replicate positions.length 0, List.replicate positions.length 0)).2 } := rfl

/-! ### List access helpers -/

lemma getD_set_self (l : List ℚ) (j : ℕ) (a : ℚ) (h : j < l.length) :
    (l.set j a).getD j 0 = a := by
  simp [List.getD_eq_getElem?_getD, List.getElem?_set_self, h]

lemma getD_set_ne (l : List ℚ) (i j : ℕ) (a : ℚ) (h : j ≠ i) :
    (l.set j a).getD i 0 = l.getD i 0 := by
  simp [List.getD_eq_getElem?_getD, List.getElem?_set_ne h]

lemma getD_map_range {α : Type} (f : ℕ → α) (n i : ℕ) (h : i < n) (d : α) :
    ((List.range n).map f).getD i d = f i := by
  simp [List.getD_eq_getElem?_getD, List.getElem?_map, List.getElem?_range h]

lemma foldl_set_length (f : ℕ → ℚ) (L : List ℕ) (l : List ℚ) :
    (L.foldl (fun q j => q.set j (f j)) l).length = l.length := by
  induction L generalizing l with
  | nil => rfl
  | cons a L ih => rw [List.foldl_cons, ih]; simp

lemma buildConfig_length (nv numJoints : ℕ) (f : ℕ → ℚ) :
    (buildConfig nv numJoints f).length = nv := by
  unfold buildConfig; rw [foldl_set_length]; simp

lemma buildConfig_getD (nv numJoints : ℕ) (f : ℕ → ℚ) (j : ℕ)
    (h1 : j < numJoints) (h2 : j < nv) :
    (buildConfig nv numJoints f).getD j 0 = f j := by
  induction numJoints with
  | zero => omega
  | succ m ih =>
      unfold buildConfig
      rw [List.range_succ, List.foldl_append, List.foldl_cons, List.foldl_nil]
      by_cases hj : j = m
      · subst hj
        apply getD_set_self
        rw [foldl_set_length]; simpa using h2
      · rw [getD_set_ne _ _ _ _ (by omega)]
        by_cases hjm : j < m
        · exact ih hjm
        · omega

/-! ### Invariants of the max-torque fold -/

lemma torqueUpdate_fst_length (tau q : List ℚ) (nj : ℕ) (st : List ℚ × List ℚ) (j : ℕ) :
    ((torqueUpdate tau q nj st j).1).length = st.1.length := by
  unfold torqueUpdate
  cases tau.get? j with
  | none => rfl
  | some t =>
      dsimp only
      by_cases h : |t| > st.1.getD j 0
      · rw [if_pos h]; simp
      · rw [if_neg h]

lemma torqueUpdate_mono (tau q : List ℚ) (nj : ℕ) (st : List ℚ × List ℚ) (j i : ℕ) :
    st.1.getD i 0 ≤ (torqueUpdate tau q nj st j).1.getD i 0 := by
  unfold torqueUpdate
  cases tau.get? j with
  | none => exact le_refl _
  | some t =>
      dsimp only
      by_cases h : |t| > st.1.getD j 0
      · rw [if_pos h]
        by_cases hij : j = i
        · subst hij
          by_cases hlen : j < st.1.length
          · rw [show ((st.1.set j |t|, (List.range nj).map (fun k => q.getD k 0)).1) = st.1.set j |t| from rfl,
              getD_set_self _ _ _ hlen]
            exact le_of_lt h
          · rw [show ((st.1.set j |t|, (List.range nj).map (fun k => q.getD k 0)).1) = st.1.set j |t| from rfl,
              List.set_eq_of_length_le (by omega)]
        · rw [show ((st.1.set j |t|, (List.range nj).map (fun k => q.getD k 0)).1) = st.1.set j |t| from rfl,
            getD_set_ne _ _ _ _ hij]
      · rw [if_neg h]

lemma torqueUpdate_le (tau q : List ℚ) (nj : ℕ) (st : List ℚ × List ℚ) (j i : ℕ) (B : ℚ)
    (hst : st.1.getD i 0 ≤ B) (htau : ∀ t, tau.get? i = some t → |t| ≤ B) :
    (torqueUpdate tau q nj st j).1.getD i 0 ≤ B := by
  unfold torqueUpdate
  cases ht : tau.get? j with
  | none => exact hst
  | some t =>
      dsimp only
      by_cases h : |t| > st.1.getD j 0
      · rw [if_pos h,
          show ((st.1.set j |t|, (List.range nj).map (fun k => q.getD k 0)).1) = st.1.set j |t| from rfl]
        by_cases hij : j = i
        · subst hij
          by_cases hlen : j < st.1.length
          · rw [getD_set_self _ _ _ hlen]; exact htau t ht
          · rw [List.set_eq_of_length_le (by omega)]; exact hst
        · rw [getD_set_ne _ _ _ _ hij]; exact hst
      · rw [if_neg h]; exact hst

lemma foldl_torqueUpdate_length (tau q : List ℚ) (nj : ℕ) (L : List ℕ) :
    ∀ st : List ℚ × List ℚ, ((L.foldl (torqueUpdate tau q nj) st).1).length = st.1.length := by
  induction L with
  | nil => intro st; rfl
  | cons a L ih =>
      intro st
      rw [List.foldl_cons, ih, torqueUpdate_fst_length]

lemma foldl_torqueUpdate_mono (tau q : List ℚ) (nj : ℕ) (L : List ℕ) (i : ℕ) :
    ∀ st : List ℚ × List ℚ,
      st.1.getD i 0 ≤ (L.foldl (torqueUpdate tau q nj) st).1.getD i 0 := by
  induction L with
  | nil => intro st; exact le_refl _
  | cons a L ih =>
      intro st
      rw [List.foldl_cons]
      exact le_trans (torqueUpdate_mono tau q nj st a i) (ih _)

lemma foldl_torqueUpdate_ge (tau q : List ℚ) (nj : ℕ) (L : List ℕ)
    (j : ℕ) (hjn : j < nj) (t : ℚ) (ht : tau.get? j = some t) :
    ∀ st : List ℚ × List ℚ, j ∈ L → st.1.length = nj →
      |t| ≤ (L.foldl (torqueUpdate tau q nj) st).1.getD j 0 := by
  induction L with
  | nil => intro st hj _; cases hj
  | cons a L ih =>
      intro st hj hlen
      rw [List.foldl_cons]
      rcases List.mem_cons.1 hj with h | h
      · subst h
        refine le_trans ?_ (foldl_torqueUpdate_mono tau q nj L j _)
        unfold torqueUpdate
        rw [ht]
        dsimp only
        by_cases hcase : |t| > st.1.getD j 0
        · rw [if_pos hcase,
            show ((st.1.set j |t|, (List.range nj).map (fun k => q.getD k 0)).1) = st.1.set j |t| from rfl,
            getD_set_self _ _ _ (by omega)]
        · rw [if_neg hcase]; exact le_of_not_lt hcase
      · exact ih _ h (by rw [torqueUpdate_fst_length]; exact hlen)

lemma foldl_torqueUpdate_le (tau q : List ℚ) (nj : ℕ) (L : List ℕ)
    (i : ℕ) (B : ℚ) (htau : ∀ t, tau.get? i = some t → |t| ≤ B) :
    ∀ st : List ℚ × List ℚ, st.1.getD i 0 ≤ B →
      (L.foldl (torqueUpdate tau q nj) st).1.getD i 0 ≤ B := by
  induction L with
  | nil => intro st hst; exact hst
  | cons a L ih =>
      intro st hst
      rw [List.foldl_cons]
      exact ih _ (torqueUpdate_le tau q nj st a i B hst htau)

lemma evaluateTorque_fst_length (rnea : List ℚ → List ℚ → List ℚ → List ℚ)
    (vs ac : List ℚ) (nj : ℕ) (st : List ℚ × List ℚ) (q : List ℚ) :
    ((evaluateTorque rnea vs ac nj st q).1).length = st.1.length := by
  unfold evaluateTorque
  rw [foldl_torqueUpdate_length]

lemma evaluateTorque_mono (rnea : List ℚ → List ℚ → List ℚ → List ℚ)
    (vs ac : List ℚ) (nj : ℕ) (st : List ℚ × List ℚ) (q : List ℚ) (i : ℕ) :
    st.1.getD i 0 ≤ (evaluateTorque rnea vs ac nj st q).1.getD i 0 := by
  unfold evaluateTorque
  exact foldl_torqueUpdate_mono _ _ _ _ _ _

lemma foldl_evaluateTorque_mono (rnea : List ℚ → List ℚ → List ℚ → List ℚ)
    (vs ac : List ℚ) (nj : ℕ) (configs : List (List ℚ)) (i : ℕ) :
    ∀ st : List ℚ × List ℚ,
      st.1.getD i 0 ≤ ((configs.foldl (evaluateTorque rnea vs ac nj) st).1).getD i 0 := by
  induction configs with
  | nil => intro st; exact le_refl _
  | cons c configs ih =>
      intro st
      rw [List.foldl_cons]
      exact le_trans (evaluateTorque_mono rnea vs ac nj st c i) (ih _)

lemma foldl_evaluateTorque_ge (rnea : List ℚ → List ℚ → List ℚ → List ℚ)
    (vs ac : List ℚ) (nj : ℕ) (configs : List (List ℚ))
    (q : List ℚ) (j : ℕ) (hjn : j < nj)
    (t : ℚ) (ht : (rnea q vs ac).get? j = some t) :
    ∀ st : List ℚ × List ℚ, q ∈ configs → st.1.length = nj →
      |t| ≤ ((configs.foldl (evaluateTorque rnea vs ac nj) st).1).getD j 0 := by
  induction configs with
  | nil => intro st hq _; cases hq
  | cons c configs ih =>
      intro st hq hlen
      rw [List.foldl_cons]
      rcases List.mem_cons.1 hq with h | h
      · subst h
        refine le_trans ?_ (foldl_evaluateTorque_mono rnea vs ac nj configs j _)
        unfold evaluateTorque
        exact foldl_torqueUpdate_ge _ _ _ _ j hjn t ht _ (List.mem_range.2 hjn) hlen
      · exact ih _ h (by rw [evaluateTorque_fst_length]; exact hlen)

lemma foldl_evaluateTorque_le (rnea : List ℚ → List ℚ → List ℚ → List ℚ)
    (vs ac : List ℚ) (nj : ℕ) (configs : List (List ℚ)) (i : ℕ) (B : ℚ)
    (hconf : ∀ q ∈ configs, ∀ t, (rnea q vs ac).get? i = some t → |t| ≤ B) :
    ∀ st : List ℚ × List ℚ, st.1.getD i 0 ≤ B →
      ((configs.foldl (evaluateTorque rnea vs ac nj) st).1).getD i 0 ≤ B := by
  induction configs with
  | nil => intro st hst; exact hst
  | cons c configs ih =>
      intro st hst
      rw [List.foldl_cons]
      refine ih (fun q hq => hconf q (List.mem_cons_of_mem _ hq)) _ ?_
      unfold evaluateTorque
      exact foldl_torqueUpdate_le _ _ _ _ i B (hconf c (List.mem_cons_self _ _)) _ hst

/-! ### Concrete instances used by the counterexamples

pin.rnea is an external WASM routine, so the claims quantify over the
inverse-dynamics callback; the instances below fix one concrete callback
and concrete one-joint robots. -/

/-- A concrete inverse-dynamics callback for a one-joint robot:
tau(q) = 3 - q0. -/
def rneaLinear : List ℚ → List ℚ → List ℚ → List ℚ := fun q _ _ => [3 - q.getD 0 0]

/-- One joint with limits [1, 2]. -/
def infoOneJoint : RobotInfo := ⟨[some 1], [some 2], ["joint0"]⟩

/-- One joint with limits [0, 1]. -/
def infoUnit : RobotInfo := ⟨[some 0], [some 1], ["joint0"]⟩

/-- One possible state of the global Math.random stream: every draw is 0.5. -/
def rngHalf : ℕ → ℚ := fun _ => 1/2

/-- Another possible state of the global Math.random stream: every draw is 0. -/
def rngZero : ℕ → ℚ := fun _ => 0

lemma buildConfig_one (f : ℕ → ℚ) : buildConfig 1 1 f = [f 0] := rfl

/-- Any corner coordinate is one of the two effective joint limits. -/
lemma cornerCoord_cases (info : RobotInfo) (mask j : ℕ) :
    cornerCoord info mask j = effLower info j ∨ cornerCoord info mask j = effUpper info j := by
  unfold cornerCoord
  split_ifs
  · right; rfl
  · left; rfl

/-- Any phase-3 pattern coordinate lies between the effective joint limits. -/
lemma extremeCoord_mem (info : RobotInfo) (s : String) (j : ℕ)
    (h : effLower info j ≤ effUpper info j) :
    effLower info j ≤ extremeCoord info s j ∧ extremeCoord info s j ≤ effUpper info j := by
  unfold extremeCoord
  dsimp only
  by_cases h1 : s = "all_min"
  · rw [if_pos h1]; exact ⟨le_refl _, h⟩
  rw [if_neg h1]
  by_cases h2 : s = "all_max"
  · rw [if_pos h2]; exact ⟨h, le_refl _⟩
  rw [if_neg h2]
  by_cases h3 : s = "alternating_even_min"
  · rw [if_pos h3]
    by_cases hj : j % 2 = 0
    · rw [if_pos hj]; exact ⟨le_refl _, h⟩
    · rw [if_neg hj]; exact ⟨h, le_refl _⟩
  rw [if_neg h3]
  by_cases h4 : s = "alternating_odd_min"
  · rw [if_pos h4]
    by_cases hj : j % 2 = 0
    · rw [if_pos hj]; exact ⟨h, le_refl _⟩
    · rw [if_neg hj]; exact ⟨le_refl _, h⟩
  rw [if_neg h4]
  by_cases h5 : s = "all_25_percent"
  · rw [if_pos h5]; constructor <;> nlinarith
  rw [if_neg h5]
  by_cases h6 : s = "all_50_percent"
  · rw [if_pos h6]; constructor <;> nlinarith
  rw [if_neg h6]
  by_cases h7 : s = "all_75_percent"
  · rw [if_pos h7]; constructor <;> nlinarith
  rw [if_neg h7]
  by_cases h8 : s = "alternating_25_75"
  · rw [if_pos h8]
    by_cases hj : j % 2 = 0
    · rw [if_pos hj]; constructor <;> nlinarith
    · rw [if_neg hj]; constructor <;> nlinarith
  rw [if_neg h8]
  by_cases h9 : s = "alternating_75_25"
  · rw [if_pos h9]
    by_cases hj : j % 2 = 0
    · rw [if_pos hj]; constructor <;> nlinarith
    · rw [if_neg hj]; constructor <;> nlinarith
  rw [if_neg h9]
  by_cases h10 : s = "thirds_1"
  · rw [if_pos h10]
    by_cases hj : j % 3 = 0
    · rw [if_pos hj]; constructor <;> nlinarith
    · rw [if_neg hj]; constructor <;> nlinarith
  rw [if_neg h10]
  by_cases h11 : s = "thirds_2"
  · rw [if_pos h11]
    by_cases hj : j % 3 = 1
    · rw [if_pos hj]; constructor <;> nlinarith
    · rw [if_neg hj]; constructor <;> nlinarith
  rw [if_neg h11]
  by_cases h12 : s = "thirds_3"
  · rw [if_pos h12]
    by_cases hj : j % 3 = 2
    · rw [if_pos hj]; constructor <;> nlinarith
    · rw [if_neg hj]; constructor <;> nlinarith
  rw [if_neg h12]
  exact ⟨le_refl _, h⟩

/-- General helper: the returned max torque dominates the torque of every
sampled configuration (the claim theorems below instantiate this). -/
lemma sampleMaxTorques_ge_of_sampled
    (rnea : List ℚ → List ℚ → List ℚ → List ℚ) (nv : ℕ) (positions : List ℚ)
    (info : RobotInfo) (jv ja : ℚ ⊕ List ℚ) (rng : ℕ → ℚ)
    (j : ℕ) (hj : j < positions.length)
    (q : List ℚ) (hq : q ∈ sampledConfigs info nv positions.length rng)
    (t : ℚ)
    (ht : (rnea q (vSampleVec nv positions.length (fillFromSpec nv jv))
        (fillFromSpec nv ja)).get? j = some t) :
    |t| ≤ (sampleMaxTorques rnea nv positions info jv ja rng).max_torques.getD j 0 := by
  rw [sampleMaxTorques_unfold]
  exact foldl_evaluateTorque_ge _ _ _ _ _ q j hj t ht _ hq (by simp)

lemma effLower_oneJoint : effLower infoOneJoint 0 = 1 := rfl

lemma effUpper_oneJoint : effUpper infoOneJoint 0 = 2 := rfl

lemma sampledConfigs_oneJoint_bound :
    ∀ q ∈ sampledConfigs infoOneJoint 1 1 rngHalf, ∀ t,
      (rneaLinear q (vSampleVec 1 1 (fillFromSpec 1 (Sum.inl 0)))
          (fillFromSpec 1 (Sum.inl 0))).get? 0 = some t →
      |t| ≤ 2 := by
  intro q hq t ht
  have htq : t = 3 - q.getD 0 0 := by
    have hr : (rneaLinear q (vSampleVec 1 1 (fillFromSpec 1 (Sum.inl 0)))
        (fillFromSpec 1 (Sum.inl 0))).get? 0 = some (3 - q.getD 0 0) := rfl
    rw [hr] at ht
    exact (Option.some_inj.1 ht).symm
  subst htq
  rw [sampledConfigs_eq] at hq
  rcases List.mem_append.1 hq with hq1 | hq3
  · rcases List.mem_append.1 hq1 with hqc | hqg
    · rcases List.mem_map.1 hqc with ⟨mask, _, rfl⟩
      rw [show buildConfig 1 1 (cornerCoord infoOneJoint mask) =
        [cornerCoord infoOneJoint mask 0] from buildConfig_one _]
      simp only [List.getD_cons_zero]
      rcases cornerCoord_cases infoOneJoint mask 0 with h | h <;>
        rw [h] <;> rw [abs_le] <;>
        constructor <;>
        simp only [effLower_oneJoint, effUpper_oneJoint] <;> norm_num
    · rcases List.mem_map.1 hqg with ⟨i, hi, rfl⟩
      have hi300 : i < 300 := List.mem_range.1 hi
      rw [buildConfig_one]
      have hco : gridCoord infoOneJoint 1 rngHalf i 0
          = 1 + ((i / 30 : ℕ) : ℚ) / 10 := by
        show (1:ℚ) + ((i / 30 : ℕ) : ℚ) * (((2:ℚ) - 1) / 10)
            + ((1:ℚ)/2 - 1/2) * (((2:ℚ) - 1) / 10) = 1 + ((i / 30 : ℕ) : ℚ) / 10
        ring
      simp only [List.getD_cons_zero, hco]
      have hk9 : ((i / 30 : ℕ) : ℚ) ≤ 9 := by
        have h9 : i / 30 ≤ 9 := by omega
        exact_mod_cast h9
      have hk0 : (0:ℚ) ≤ ((i / 30 : ℕ) : ℚ) := by positivity
      rw [abs_le]
      constructor <;> linarith
  · rcases List.mem_map.1 hq3 with ⟨s, _, rfl⟩
    rw [show buildConfig 1 1 (extremeCoord infoOneJoint s) =
      [extremeCoord infoOneJoint s 0] from buildConfig_one _]
    simp only [List.getD_cons_zero]
    have hmem := extremeCoord_mem infoOneJoint s 0
      (by rw [effLower_oneJoint, effUpper_oneJoint]; norm_num)
    rw [effLower_oneJoint, effUpper_oneJoint] at hmem
    rw [abs_le]
    constructor <;> linarith [hmem.1, hmem.2]

lemma rngHalf_max_le_two :
    (sampleMaxTorques rneaLinear 1 [0] infoOneJoint (Sum.inl 0) (Sum.inl 0)
        rngHalf).max_torques.getD 0 0 ≤ 2 := by
  rw [sampleMaxTorques_unfold]
  exact foldl_evaluateTorque_le rneaLinear
      (vSampleVec 1 1 (fillFromSpec 1 (Sum.inl 0))) (fillFromSpec 1 (Sum.inl 0)) 1
      (sampledConfigs infoOneJoint 1 1 rngHalf) 0 2 sampledConfigs_oneJoint_bound
      (List.replicate 1 0, List.replicate 1 0) (by norm_num)

/-- The dominance property the claim asserts for every call: each returned
max torque bounds the magnitude of the corresponding current torque. -/
def maxDominatesCurrent (res : MaxTorqueResult) (numJoints : ℕ) : Prop :=
  ∀ j < numJoints, |res.current_gravity_torques.getD j 0| ≤ res.max_torques.getD j 0

/-- C1 counterexample: the current configuration is never fed to the
sampling phases, so with callback tau(q) = 3 - q0, current position q = 0
and joint limits [1, 2] the current torque is 3 while every sampled torque
is at most 2; dominance fails. -/
theorem sampleMaxTorques_dominance_counterexample :
    ¬ maxDominatesCurrent
        (sampleMaxTorques rneaLinear 1 [0] infoOneJoint (Sum.inl 0) (Sum.inl 0) rngHalf) 1 := by
  intro h
  have h0 := h 0 (by norm_num)
  have hcur : (sampleMaxTorques rneaLinear 1 [0] infoOneJoint (Sum.inl 0) (Sum.inl 0)
      rngHalf).current_gravity_torques = [3] := by
    rw [sampleMaxTorques_unfold]
    norm_num [rneaLinear]
  rw [hcur] at h0
  have hmax := rngHalf_max_le_two
  simp only [List.getD_cons_zero] at h0
  rw [abs_of_pos (by norm_num : (0:ℚ) < 3)] at h0
  linarith

/-- C1 (amended): max_torques[j] dominates the torque magnitude of every
configuration actually sampled in phases 1-3 (corners, stratified grid,
fixed patterns); the current configuration is not among the samples, so
dominance over the current torques can fail. -/
theorem sampleMaxTorques_max_dominates_sampled
    (rnea : List ℚ → List ℚ → List ℚ → List ℚ) (nv : ℕ) (positions : List ℚ)
    (info : RobotInfo) (jv ja : ℚ ⊕ List ℚ) (rng : ℕ → ℚ)
    (j : ℕ) (hj : j < positions.length)
    (q : List ℚ) (hq : q ∈ sampledConfigs info nv positions.length rng)
    (t : ℚ)
    (ht : (rnea q (vSampleVec nv positions.length (fillFromSpec nv jv))
        (fillFromSpec nv ja)).get? j = some t) :
    |t| ≤ (sampleMaxTorques rnea nv positions info jv ja rng).max_torques.getD j 0 :=
  sampleMaxTorques_ge_of_sampled rnea nv positions info jv ja rng j hj q hq t ht

/-- Witness for the amended C1 theorem at the first corner configuration. -/
theorem sampleMaxTorques_max_dominates_sampled_witness :
    (0 < ([(0:ℚ)] : List ℚ).length) ∧
    ([(1:ℚ)] ∈ sampledConfigs infoOneJoint 1 ([(0:ℚ)] : List ℚ).length rngHalf) ∧
    ((rneaLinear [1] (vSampleVec 1 ([(0:ℚ)] : List ℚ).length (fillFromSpec 1 (Sum.inl 0)))
        (fillFromSpec 1 (Sum.inl 0))).get? 0 = some 2) ∧
    |(2:ℚ)| ≤ (sampleMaxTorques rneaLinear 1 [0] infoOneJoint (Sum.inl 0) (Sum.inl 0)
        rngHalf).max_torques.getD 0 0 := by
  have hm : [(1:ℚ)] ∈ sampledConfigs infoOneJoint 1 ([(0:ℚ)] : List ℚ).length rngHalf := by
    rw [sampledConfigs_eq]
    refine List.mem_append_left _ (List.mem_append_left _ ?_)
    refine List.mem_map.2 ⟨0, List.mem_range.2 (by norm_num), ?_⟩
    show buildConfig 1 1 (cornerCoord infoOneJoint 0) = [1]
    rw [buildConfig_one]
    have hc : cornerCoord infoOneJoint 0 0 = 1 := by
      unfold cornerCoord
      rw [if_neg (by simp)]
      exact effLower_oneJoint
    rw [hc]
  have ht : (rneaLinear [1] (vSampleVec 1 ([(0:ℚ)] : List ℚ).length
      (fillFromSpec 1 (Sum.inl 0))) (fillFromSpec 1 (Sum.inl 0))).get? 0 = some 2 := by
    show some ((3:ℚ) - ([1] : List ℚ).getD 0 0) = some 2
    norm_num
  exact ⟨by norm_num, hm, ht,
    sampleMaxTorques_max_dominates_sampled rneaLinear 1 [0] infoOneJoint
      (Sum.inl 0) (Sum.inl 0) rngHalf 0 (by norm_num) [1] hm 2 ht⟩

/-- C4 counterexample: phase 2 draws from the ambient global Math.random
stream, which is not an argument of the sampler; two calls with identical
API arguments but different ambient stream states return different
max_torques (stream constant 0.5 versus stream constant 0). -/
theorem sampleMaxTorques_hidden_rng_counterexample :
    (sampleMaxTorques rneaLinear 1 [0] infoOneJoint (Sum.inl 0) (Sum.inl 0)
        rngHalf).max_torques ≠
      (sampleMaxTorques rneaLinear 1 [0] infoOneJoint (Sum.inl 0) (Sum.inl 0)
        rngZero).max_torques := by
  intro heq
  have h1 := rngHalf_max_le_two
  have hmem : [(19:ℚ)/20] ∈ sampledConfigs infoOneJoint 1 ([(0:ℚ)] : List ℚ).length rngZero := by
    rw [sampledConfigs_eq]
    refine List.mem_append_left _ (List.mem_append_right _ ?_)
    refine List.mem_map.2 ⟨0, List.mem_range.2 (by norm_num), ?_⟩
    show buildConfig 1 1 (gridCoord infoOneJoint 1 rngZero 0) = [19/20]
    rw [buildConfig_one]
    have hc : gridCoord infoOneJoint 1 rngZero 0 0 = 19/20 := by
      show (1:ℚ) + ((0 / 30 : ℕ) : ℚ) * (((2:ℚ) - 1) / 10)
          + ((0:ℚ) - 1/2) * (((2:ℚ) - 1) / 10) = 19/20
      norm_num
    rw [hc]
  have h2 : |(41:ℚ)/20| ≤ (sampleMaxTorques rneaLinear 1 [0] infoOneJoint
      (Sum.inl 0) (Sum.inl 0) rngZero).max_torques.getD 0 0 :=
    sampleMaxTorques_ge_of_sampled rneaLinear 1 [0] infoOneJoint (Sum.inl 0) (Sum.inl 0)
      rngZero 0 (by norm_num) _ hmem (41/20)
      (by show some ((3:ℚ) - ([19/20] : List ℚ).getD 0 0) = some (41/20); norm_num)
  rw [← heq] at h2
  rw [abs_of_pos (by norm_num : (0:ℚ) < 41/20)] at h2
  linarith

/-- C4 (amended): the randomness is confined to phase 2 and reaches the
sampler only through the ambient Math.random stream (the explicit rng
parameter of the embedding): current_gravity_torques and joint_names are
independent of the stream state and equal to the direct rnea evaluation,
while no seed parameter exists in the API. -/
theorem sampleMaxTorques_rng_confinement
    (rnea : List ℚ → List ℚ → List ℚ → List ℚ) (nv : ℕ) (positions : List ℚ)
    (info : RobotInfo) (jv ja : ℚ ⊕ List ℚ) (rng1 rng2 : ℕ → ℚ) :
    (sampleMaxTorques rnea nv positions info jv ja rng1).current_gravity_torques
        = (sampleMaxTorques rnea nv positions info jv ja rng2).current_gravity_torques ∧
    (sampleMaxTorques rnea nv positions info jv ja rng1).joint_names
        = (sampleMaxTorques rnea nv positions info jv ja rng2).joint_names ∧
    (sampleMaxTorques rnea nv positions info jv ja rng1).current_gravity_torques
        = rnea positions (fillFromSpec nv jv) (fillFromSpec nv ja) :=
  ⟨rfl, rfl, rfl⟩

/-- The in-limits property the claim asserts for the stratified phase. -/
def stratifiedInLimits (info : RobotInfo) (nv numJoints : ℕ) (rng : ℕ → ℚ) : Prop :=
  ∀ q ∈ gridConfigs info nv numJoints rng, ∀ j < numJoints,
    effLower info j ≤ q.getD j 0 ∧ q.getD j 0 ≤ effUpper info j

/-- C5 counterexample: the source jitters around the stratum's left edge
(lower + s*step + (rand - 0.5)*step), not its centre, so with limits [0, 1]
and a zero random draw the very first stratified sample sits at -1/20,
below the lower limit. -/
theorem gridConfigs_outside_limits_counterexample :
    ¬ stratifiedInLimits infoUnit 1 1 rngZero := by
  intro h
  have hmem : [(-1:ℚ)/20] ∈ gridConfigs infoUnit 1 1 rngZero := by
    refine List.mem_map.2 ⟨0, List.mem_range.2 (by norm_num), ?_⟩
    show buildConfig 1 1 (gridCoord infoUnit 1 rngZero 0) = [(-1)/20]
    rw [buildConfig_one]
    have hc : gridCoord infoUnit 1 rngZero 0 0 = (-1)/20 := by
      show (0:ℚ) + ((0 / 30 : ℕ) : ℚ) * (((1:ℚ) - 0) / 10)
          + ((0:ℚ) - 1/2) * (((1:ℚ) - 0) / 10) = (-1)/20
      norm_num
    rw [hc]
  have hle := (h _ hmem 0 (by norm_num)).1
  rw [show effLower infoUnit 0 = 0 from rfl] at hle
  simp only [List.getD_cons_zero] at hle
  norm_num at hle

lemma strat_bounds (lo up k u : ℚ) (hlim : lo < up) (hk0 : 0 ≤ k) (hk9 : k ≤ 9)
    (hu0 : 0 ≤ u) (hu1 : u < 1) :
    lo - (up - lo) / 20 ≤ lo + (k + (u - 1/2)) * ((up - lo) / 10) ∧
    lo + (k + (u - 1/2)) * ((up - lo) / 10) < up - (up - lo) / 20 := by
  constructor
  · nlinarith [mul_nonneg (add_nonneg hk0 hu0) (sub_nonneg.2 hlim.le)]
  · nlinarith [mul_pos (sub_pos.2 hlim) (show (0:ℚ) < 10 - k - u by linarith)]

/-- C5 (amended): phase 2 draws exactly 300 stratified samples with stratum
s = floor(i/30), but the coordinate is lower + (s + jitter)*step with
jitter = rand - 0.5 in [-0.5, 0.5) and step = (upper - lower)/10: the
samples are centred on the stratum's left edge, lie in the half-open
interval [lower - step/2, upper - step/2) and may fall below the lower
joint limit by up to step/2. -/
theorem gridConfigs_spec (info : RobotInfo) (nv numJoints : ℕ) (rng : ℕ → ℚ)
    (hrng : ∀ n, 0 ≤ rng n ∧ rng n < 1)
    (hlim : ∀ j, j < numJoints → effLower info j < effUpper info j) :
    (gridConfigs info nv numJoints rng).length = 300 ∧
    ∀ i, i < 300 → ∀ j, j < numJoints → j < nv →
      (((gridConfigs info nv numJoints rng).getD i []).getD j 0
          = effLower info j
            + (((i / 30 : ℕ) : ℚ) + (rng (i * numJoints + j) - 1/2))
              * ((effUpper info j - effLower info j) / 10)) ∧
      effLower info j - (effUpper info j - effLower info j) / 20
          ≤ ((gridConfigs info nv numJoints rng).getD i []).getD j 0 ∧
      ((gridConfigs info nv numJoints rng).getD i []).getD j 0
          < effUpper info j - (effUpper info j - effLower info j) / 20 := by
  constructor
  · simp [gridConfigs]
  · intro i hi j hjn hjv
    have hgi : (gridConfigs info nv numJoints rng).getD i [] =
        buildConfig nv numJoints (gridCoord info numJoints rng i) := by
      unfold gridConfigs
      exact getD_map_range _ 300 i hi _
    rw [hgi, buildConfig_getD _ _ _ _ hjn hjv]
    have hform : gridCoord info numJoints rng i j
        = effLower info j
          + (((i / 30 : ℕ) : ℚ) + (rng (i * numJoints + j) - 1/2))
            * ((effUpper info j - effLower info j) / 10) := by
      unfold gridCoord; ring
    have hk9 : ((i / 30 : ℕ) : ℚ) ≤ 9 := by
      have : i / 30 ≤ 9 := by omega
      exact_mod_cast this
    have hk0 : (0:ℚ) ≤ ((i / 30 : ℕ) : ℚ) := by positivity
    have hr := hrng (i * numJoints + j)
    have hb := strat_bounds (effLower info j) (effUpper info j)
      ((i / 30 : ℕ) : ℚ) (rng (i * numJoints + j)) (hlim j hjn) hk0 hk9 hr.1 hr.2
    exact ⟨hform, by rw [hform]; exact hb.1, by rw [hform]; exact hb.2⟩

/-- Witness for the amended C5 theorem: one joint, limits [0, 1], all
random draws 0. -/
theorem gridConfigs_spec_witness :
    (∀ n, 0 ≤ rngZero n ∧ rngZero n < 1) ∧
    (∀ j, j < 1 → effLower infoUnit j < effUpper infoUnit j) ∧
    ((gridConfigs infoUnit 1 1 rngZero).length = 300 ∧
     ∀ i, i < 300 → ∀ j, j < 1 → j < 1 →
      (((gridConfigs infoUnit 1 1 rngZero).getD i []).getD j 0
          = effLower infoUnit j
            + (((i / 30 : ℕ) : ℚ) + (rngZero (i * 1 + j) - 1/2))
              * ((effUpper infoUnit j - effLower infoUnit j) / 10)) ∧
      effLower infoUnit j - (effUpper infoUnit j - effLower infoUnit j) / 20
          ≤ ((gridConfigs infoUnit 1 1 rngZero).getD i []).getD j 0 ∧
      ((gridConfigs infoUnit 1 1 rngZero).getD i []).getD j 0
          < effUpper infoUnit j - (effUpper infoUnit j - effLower infoUnit j) / 20) := by
  have h1 : ∀ n, 0 ≤ rngZero n ∧ rngZero n < 1 := fun n => by
    constructor <;> norm_num [rngZero]
  have h2 : ∀ j, j < 1 → effLower infoUnit j < effUpper infoUnit j := by
    intro j hj
    have hj0 : j = 0 := by omega
    subst hj0
    rw [show effLower infoUnit 0 = 0 from rfl, show effUpper infoUnit 0 = 1 from rfl]
    norm_num
  exact ⟨h1, h2, gridConfigs_spec infoUnit 1 1 rngZero h1 h2⟩

/-! ## Damped-least-squares IK (solveInverseKinematics, solvers.ts lines 3-104)

Embedded over the rationals.  The external WASM queries
pin.forwardKinematics / pin.updateFramePlacements / pin.getJointPlacement
are abstracted as the callback fk (the end-effector translation at q) and
pin.computeJointJacobians / pin.getJointJacobian as the callback jac (the
flat column-major 6 x nv LOCAL_WORLD_ALIGNED Jacobian at q).  The source
compares Math.sqrt(errSq) against the tolerance 1e-4 and keeps that square
root in final_error; since sqrt(s) < t iff s < t^2 for t > 0 (lemma
errSq_sqrt_lt below), the loop is controlled by the equivalent rational
comparison errSq < tol * tol and the result record carries the squared
error; the initial Number.POSITIVE_INFINITY of final_error is modelled as
none. -/

structure IKResult where
  positions : List ℚ
  converged : Bool
  final_error_sq : Option ℚ
  iterations : ℕ

/-- PINOCCHIO_TOLERANCE = 1e-4. -/
def ikTol : ℚ := 1/10000

/-- damp = 1e-6. -/
def ikDamp : ℚ := 1/1000000

/-- err = currentPos - targetPosition componentwise; errSq = err.err
(the source stores Math.sqrt of this value in final_error). -/
def errSq (p target : List ℚ) : ℚ :=
  (p.getD 0 0 - target.getD 0 0) * (p.getD 0 0 - target.getD 0 0)
  + (p.getD 1 0 - target.getD 1 0) * (p.getD 1 0 - target.getD 1 0)
  + (p.getD 2 0 - target.getD 2 0) * (p.getD 2 0 - target.getD 2 0)

/-- J[r][c] = J_flat[c * 6 + r]. -/
def jEntry (jflat : List ℚ) (r c : ℕ) : ℚ := jflat.getD (c * 6 + r) 0

/-- JJT[i][j] = sum_k J[i][k] * J[j][k], plus damping on the diagonal. -/
def jjt (jflat : List ℚ) (nv : ℕ) (i j : ℕ) : ℚ :=
  ((List.range nv).foldl (fun s k => s + jEntry jflat i k * jEntry jflat j k) 0)
  + (if i = j then ikDamp else 0)

/-- 3 x 3 determinant, the source's cofactor expansion. -/
def det3 (m : ℕ → ℕ → ℚ) : ℚ :=
  m 0 0 * (m 1 1 * m 2 2 - m 1 2 * m 2 1)
  - m 0 1 * (m 1 0 * m 2 2 - m 1 2 * m 2 0)
  + m 0 2 * (m 1 0 * m 2 1 - m 1 1 * m 2 0)

/-- The source's closed-form 3 x 3 inverse (cofactors times invdet = 1/det,
computed unconditionally; in exact arithmetic JJT = J J^T + damp I is
positive definite so det > 0 here). -/
def inv3 (m : ℕ → ℕ → ℚ) (i j : ℕ) : ℚ :=
  let invdet := 1 / det3 m
  if i = 0 ∧ j = 0 then (m 1 1 * m 2 2 - m 2 1 * m 1 2) * invdet
  else if i = 0 ∧ j = 1 then (m 0 2 * m 2 1 - m 0 1 * m 2 2) * invdet
  else if i = 0 ∧ j = 2 then (m 0 1 * m 1 2 - m 0 2 * m 1 1) * invdet
  else if i = 1 ∧ j = 0 then (m 1 2 * m 2 0 - m 1 0 * m 2 2) * invdet
  else if i = 1 ∧ j = 1 then (m 0 0 * m 2 2 - m 0 2 * m 2 0) * invdet
  else if i = 1 ∧ j = 2 then (m 1 0 * m 0 2 - m 0 0 * m 1 2) * invdet
  else if i = 2 ∧ j = 0 then (m 1 0 * m 2 1 - m 2 0 * m 1 1) * invdet
  else if i = 2 ∧ j = 1 then (m 2 0 * m 0 1 - m 0 0 * m 2 1) * invdet
  else (m 0 0 * m 1 1 - m 1 0 * m 0 1) * invdet

/-- One damped-least-squares update of q: invErr = JJT^-1 err,
dq[c] = sum_r J[r][c] * invErr[r], and q[c] -= dq[c] * 0.5 for every c < nv
(writes beyond the length of q are ignored, as in the Float64Array). -/
def ikStep (jflat : List ℚ) (nv : ℕ) (p target q : List ℚ) : List ℚ :=
  let e : ℕ → ℚ := fun r => p.getD r 0 - target.getD r 0
  let m := jjt jflat nv
  let invErr : ℕ → ℚ := fun i => inv3 m i 0 * e 0 + inv3 m i 1 * e 1 + inv3 m i 2 * e 2
  (List.range nv).foldl
    (fun acc c =>
      acc.set c (acc.getD c 0
        - ((List.range 3).foldl (fun s r => s + jEntry jflat r c * invErr r) 0) * (1/2)))
    q

/-- The for-loop of solveInverseKinematics: fuel counts the remaining
iterations, itersDone mirrors the JS loop counter and lastE2 carries the
last measured squared error (none = not yet measured = Infinity). -/
def ikLoop (fk jac : List ℚ → List ℚ) (nv : ℕ) (target : List ℚ) :
    ℕ → List ℚ → ℕ → Option ℚ → IKResult
  | 0, q, itersDone, lastE2 => ⟨q, false, lastE2, itersDone⟩
  | fuel + 1, q, itersDone, _ =>
      let p := fk q
      let e2 := errSq p target
      if e2 < ikTol * ikTol then ⟨q, true, some e2, itersDone⟩
      else ikLoop fk jac nv target fuel (ikStep (jac q) nv p target q) (itersDone + 1) (some e2)

/-- solveInverseKinematics (solvers.ts lines 3-104); fk and jac abstract the
external kinematics queries, nv is model.nv. -/
def solveInverseKinematics (fk jac : List ℚ → List ℚ) (nv : ℕ)
    (targetPosition initialPositions : List ℚ) (maxIterations : ℕ) : IKResult :=
  ikLoop fk jac nv targetPosition maxIterations initialPositions 0 none

lemma errSq_nonneg (p target : List ℚ) : 0 ≤ errSq p target := by
  unfold errSq
  have h1 := mul_self_nonneg (p.getD 0 0 - target.getD 0 0)
  have h2 := mul_self_nonneg (p.getD 1 0 - target.getD 1 0)
  have h3 := mul_self_nonneg (p.getD 2 0 - target.getD 2 0)
  linarith

/-- Bridge to the source's comparison Math.sqrt(errSq) < 1e-4. -/
lemma errSq_sqrt_lt (p target : List ℚ) :
    Real.sqrt ((errSq p target : ℚ) : ℝ) < ((ikTol : ℚ) : ℝ) ↔
      ((errSq p target : ℚ) : ℝ) < ((ikTol : ℚ) : ℝ) ^ 2 :=
  Real.sqrt_lt' (by norm_num [ikTol])

lemma ikLoop_succ_pos (fk jac : List ℚ → List ℚ) (nv : ℕ) (target : List ℚ)
    (fuel : ℕ) (q : List ℚ) (itersDone : ℕ) (lastE2 : Option ℚ)
    (h : errSq (fk q) target < ikTol * ikTol) :
    ikLoop fk jac nv target (fuel + 1) q itersDone lastE2
      = ⟨q, true, some (errSq (fk q) target), itersDone⟩ := by
  unfold ikLoop
  dsimp only
  rw [if_pos h]

lemma ikLoop_succ_neg (fk jac : List ℚ → List ℚ) (nv : ℕ) (target : List ℚ)
    (fuel : ℕ) (q : List ℚ) (itersDone : ℕ) (lastE2 : Option ℚ)
    (h : ¬ errSq (fk q) target < ikTol * ikTol) :
    ikLoop fk jac nv target (fuel + 1) q itersDone lastE2
      = ikLoop fk jac nv target fuel (ikStep (jac q) nv (fk q) target q)
          (itersDone + 1) (some (errSq (fk q) target)) := by
  conv_lhs => rw [ikLoop]
  rw [if_neg h]

/-- Whenever the loop reports convergence, the returned positions are the
iterate whose measured error passed the tolerance test, the stored error is
exactly that measurement, and it is below the tolerance. -/
lemma ikLoop_spec (fk jac : List ℚ → List ℚ) (nv : ℕ) (target : List ℚ) :
    ∀ (fuel : ℕ) (q : List ℚ) (itersDone : ℕ) (lastE2 : Option ℚ),
      (ikLoop fk jac nv target fuel q itersDone lastE2).converged = true →
      (ikLoop fk jac nv target fuel q itersDone lastE2).final_error_sq
          = some (errSq (fk (ikLoop fk jac nv target fuel q itersDone lastE2).positions) target)
        ∧ errSq (fk (ikLoop fk jac nv target fuel q itersDone lastE2).positions) target
          < ikTol * ikTol := by
  intro fuel
  induction fuel with
  | zero =>
      intro q itersDone lastE2 h
      exact absurd h (by simp [ikLoop])
  | succ fuel ih =>
      intro q itersDone lastE2 h
      by_cases hc : errSq (fk q) target < ikTol * ikTol
      · rw [ikLoop_succ_pos fk jac nv target fuel q itersDone lastE2 hc]
        exact ⟨rfl, hc⟩
      · rw [ikLoop_succ_neg fk jac nv target fuel q itersDone lastE2 hc] at h ⊢
        exact ih _ _ _ h

/-- C3: when solveInverseKinematics returns converged = true, the returned
configuration is exactly the iterate at which the measured end-effector
error passed the tolerance test (no further update is applied), the
returned final error is that last measurement, and it is below
tol = 1e-4 (stated both on the squared error and through Math.sqrt). -/
theorem solveInverseKinematics_fixed_point
    (fk jac : List ℚ → List ℚ) (nv : ℕ) (target q0 : List ℚ) (maxIterations : ℕ)
    (h : (solveInverseKinematics fk jac nv target q0 maxIterations).converged = true) :
    (solveInverseKinematics fk jac nv target q0 maxIterations).final_error_sq
        = some (errSq (fk (solveInverseKinematics fk jac nv target q0 maxIterations).positions)
            target)
      ∧ errSq (fk (solveInverseKinematics fk jac nv target q0 maxIterations).positions) target
          < ikTol * ikTol
      ∧ Real.sqrt ((errSq (fk (solveInverseKinematics fk jac nv target q0
            maxIterations).positions) target : ℚ) : ℝ) < ((ikTol : ℚ) : ℝ) := by
  have hs := ikLoop_spec fk jac nv target maxIterations q0 0 none h
  refine ⟨hs.1, hs.2, ?_⟩
  rw [errSq_sqrt_lt, sq]
  exact_mod_cast hs.2

/-- The end-effector query used by the C3 witness: constantly at the origin. -/
def fkZero : List ℚ → List ℚ := fun _ => [0, 0, 0]

/-- The Jacobian query used by the C3 witness. -/
def jacEmpty : List ℚ → List ℚ := fun _ => []

/-- Witness for C3: with the end effector already on the target, the solver
converges immediately. -/
theorem solveInverseKinematics_fixed_point_witness :
    ((solveInverseKinematics fkZero jacEmpty 1 [0, 0, 0] [0] 5).converged = true) ∧
    ((solveInverseKinematics fkZero jacEmpty 1 [0, 0, 0] [0] 5).final_error_sq
        = some (errSq (fkZero (solveInverseKinematics fkZero jacEmpty 1 [0, 0, 0] [0]
            5).positions) [0, 0, 0])
      ∧ errSq (fkZero (solveInverseKinematics fkZero jacEmpty 1 [0, 0, 0] [0] 5).positions)
          [0, 0, 0] < ikTol * ikTol
      ∧ Real.sqrt ((errSq (fkZero (solveInverseKinematics fkZero jacEmpty 1 [0, 0, 0] [0]
            5).positions) [0, 0, 0] : ℚ) : ℝ) < ((ikTol : ℚ) : ℝ)) := by
  have he : errSq (fkZero [0]) [0, 0, 0] < ikTol * ikTol := by
    norm_num [errSq, fkZero, ikTol]
  have h : (solveInverseKinematics fkZero jacEmpty 1 [0, 0, 0] [0] 5).converged = true := by
    show (ikLoop fkZero jacEmpty 1 [0, 0, 0] 5 [0] 0 none).converged = true
    rw [show (5 : ℕ) = 4 + 1 from rfl, ikLoop_succ_pos fkZero jacEmpty 1 [0, 0, 0] 4 [0] 0 none he]
  exact ⟨h, solveInverseKinematics_fixed_point fkZero jacEmpty 1 [0, 0, 0] [0] 5 h⟩

/-! ## Fibonacci-sphere rays (generateSphericalRays, part_009 lines 34-51)

Embedded over the reals: the source uses Math.sqrt, Math.cos and Math.sin.
The golden angle phi = pi * (3 - sqrt 5) is hoisted outside the source loop
but is a constant, so it is inlined per ray here. -/

structure Vec3 where
  x : ℝ
  y : ℝ
  z : ℝ

noncomputable def generateSphericalRays (numRays : ℕ) : List Vec3 :=
  (List.range numRays).map (fun (i : ℕ) =>
    let phi : ℝ := Real.pi * (3 - Real.sqrt 5)
    let y : ℝ := 1 - ((i : ℝ) / ((numRays : ℝ) - 1)) * 2
    let radius : ℝ := Real.sqrt (1 - y * y)
    let theta : ℝ := phi * (i : ℝ)
    ⟨Real.cos theta * radius, y, Real.sin theta * radius⟩)

/-- C8: for numRays >= 2 the generator returns exactly numRays directions
following the Fibonacci-spiral formula; every direction has unit norm, the
first is (0, 1, 0) and the last is (0, -1, 0). -/
theorem generateSphericalRays_spec (N : ℕ) (hN : 2 ≤ N) :
    (generateSphericalRays N).length = N ∧
    (∀ i, i < N →
      (generateSphericalRays N).getD i ⟨0, 0, 0⟩ =
        ⟨Real.cos (Real.pi * (3 - Real.sqrt 5) * (i : ℝ))
            * Real.sqrt (1 - (1 - ((i : ℝ) / ((N : ℝ) - 1)) * 2)
                * (1 - ((i : ℝ) / ((N : ℝ) - 1)) * 2)),
          1 - ((i : ℝ) / ((N : ℝ) - 1)) * 2,
          Real.sin (Real.pi * (3 - Real.sqrt 5) * (i : ℝ))
            * Real.sqrt (1 - (1 - ((i : ℝ) / ((N : ℝ) - 1)) * 2)
                * (1 - ((i : ℝ) / ((N : ℝ) - 1)) * 2))⟩ ∧
      Real.sqrt (((generateSphericalRays N).getD i ⟨0, 0, 0⟩).x ^ 2
          + ((generateSphericalRays N).getD i ⟨0, 0, 0⟩).y ^ 2
          + ((generateSphericalRays N).getD i ⟨0, 0, 0⟩).z ^ 2) = 1) ∧
    (generateSphericalRays N).getD 0 ⟨0, 0, 0⟩ = ⟨0, 1, 0⟩ ∧
    (generateSphericalRays N).getD (N - 1) ⟨0, 0, 0⟩ = ⟨0, -1, 0⟩ := by
  have hden : (0 : ℝ) < (N : ℝ) - 1 := by
    have h2 : (2 : ℝ) ≤ (N : ℝ) := by exact_mod_cast hN
    linarith
  have hget : ∀ i, i < N → (generateSphericalRays N).getD i ⟨0, 0, 0⟩ =
      ⟨Real.cos (Real.pi * (3 - Real.sqrt 5) * (i : ℝ))
          * Real.sqrt (1 - (1 - ((i : ℝ) / ((N : ℝ) - 1)) * 2)
              * (1 - ((i : ℝ) / ((N : ℝ) - 1)) * 2)),
        1 - ((i : ℝ) / ((N : ℝ) - 1)) * 2,
        Real.sin (Real.pi * (3 - Real.sqrt 5) * (i : ℝ))
          * Real.sqrt (1 - (1 - ((i : ℝ) / ((N : ℝ) - 1)) * 2)
              * (1 - ((i : ℝ) / ((N : ℝ) - 1)) * 2))⟩ := by
    intro i hi
    unfold generateSphericalRays
    rw [getD_map_range _ N i hi]
  refine ⟨by simp [generateSphericalRays], ?_, ?_, ?_⟩
  · intro i hi
    refine ⟨hget i hi, ?_⟩
    rw [hget i hi]
    dsimp only
    set y : ℝ := 1 - ((i : ℝ) / ((N : ℝ) - 1)) * 2 with hy
    set th : ℝ := Real.pi * (3 - Real.sqrt 5) * (i : ℝ) with hth
    have ht0 : 0 ≤ (i : ℝ) / ((N : ℝ) - 1) := div_nonneg (by positivity) hden.le
    have ht1 : (i : ℝ) / ((N : ℝ) - 1) ≤ 1 := by
      rw [div_le_one hden]
      have hiN : (i : ℝ) + 1 ≤ (N : ℝ) := by exact_mod_cast hi
      linarith
    have hya : -1 ≤ y := by rw [hy]; linarith
    have hyb : y ≤ 1 := by rw [hy]; linarith
    have hy2 : 0 ≤ 1 - y * y := by
      nlinarith [mul_nonneg (by linarith : (0:ℝ) ≤ 1 - y) (by linarith : (0:ℝ) ≤ 1 + y)]
    have hsum : (Real.cos th * Real.sqrt (1 - y * y)) ^ 2 + y ^ 2
        + (Real.sin th * Real.sqrt (1 - y * y)) ^ 2 = 1 := by
      have hcs : Real.cos th ^ 2 + Real.sin th ^ 2 = 1 := Real.cos_sq_add_sin_sq th
      have hsq : Real.sqrt (1 - y * y) ^ 2 = 1 - y * y := Real.sq_sqrt hy2
      calc (Real.cos th * Real.sqrt (1 - y * y)) ^ 2 + y ^ 2
            + (Real.sin th * Real.sqrt (1 - y * y)) ^ 2
          = (Real.cos th ^ 2 + Real.sin th ^ 2) * Real.sqrt (1 - y * y) ^ 2 + y ^ 2 := by
            ring
        _ = 1 * (1 - y * y) + y ^ 2 := by rw [hcs, hsq]
        _ = 1 := by ring
    rw [hsum]
    exact Real.sqrt_one
  · rw [hget 0 (by omega)]
    have hy0 : (1 : ℝ) - (((0 : ℕ) : ℝ) / ((N : ℝ) - 1)) * 2 = 1 := by
      norm_num
    rw [hy0]
    have hr0 : Real.sqrt (1 - (1 : ℝ) * 1) = 0 := by
      norm_num [Real.sqrt_zero]
    rw [hr0]
    simp
  · rw [hget (N - 1) (by omega)]
    have hcast : ((N - 1 : ℕ) : ℝ) = (N : ℝ) - 1 := by
      have h1 : 1 ≤ N := by omega
      push_cast [h1]
      ring
    have hym : (1 : ℝ) - (((N - 1 : ℕ) : ℝ) / ((N : ℝ) - 1)) * 2 = -1 := by
      rw [hcast, div_self (ne_of_gt hden)]
      ring
    rw [hym]
    have hrm : Real.sqrt (1 - (-1 : ℝ) * (-1)) = 0 := by
      norm_num [Real.sqrt_zero]
    rw [hrm]
    simp

/-- Witness for C8 at numRays = 2. -/
theorem generateSphericalRays_spec_witness :
    (2 ≤ 2) ∧
    ((generateSphericalRays 2).length = 2 ∧
    (∀ i, i < 2 →
      (generateSphericalRays 2).getD i ⟨0, 0, 0⟩ =
        ⟨Real.cos (Real.pi * (3 - Real.sqrt 5) * (i : ℝ))
            * Real.sqrt (1 - (1 - ((i : ℝ) / (((2 : ℕ) : ℝ) - 1)) * 2)
                * (1 - ((i : ℝ) / (((2 : ℕ) : ℝ) - 1)) * 2)),
          1 - ((i : ℝ) / (((2 : ℕ) : ℝ) - 1)) * 2,
          Real.sin (Real.pi * (3 - Real.sqrt 5) * (i : ℝ))
            * Real.sqrt (1 - (1 - ((i : ℝ) / (((2 : ℕ) : ℝ) - 1)) * 2)
                * (1 - ((i : ℝ) / (((2 : ℕ) : ℝ) - 1)) * 2))⟩ ∧
      Real.sqrt (((generateSphericalRays 2).getD i ⟨0, 0, 0⟩).x ^ 2
          + ((generateSphericalRays 2).getD i ⟨0, 0, 0⟩).y ^ 2
          + ((generateSphericalRays 2).getD i ⟨0, 0, 0⟩).z ^ 2) = 1) ∧
    (generateSphericalRays 2).getD 0 ⟨0, 0, 0⟩ = ⟨0, 1, 0⟩ ∧
    (generateSphericalRays 2).getD (2 - 1) ⟨0, 0, 0⟩ = ⟨0, -1, 0⟩) :=
  ⟨by norm_num, generateSphericalRays_spec 2 (by norm_num)⟩

/-! ## 3-D QuickHull (computeConvexHull / quickHull3D, solvers.ts lines 495-1055)

Embedded over the reals (vec3Normalize uses Math.sqrt).  JS object identity
for HullFace instances (used by the Set during the visibility walk and by
splice-removal) is modelled with a unique numeric faceId; the JS stack
(push/pop at the array end) is modelled with a head-of-list stack, which
pops in the same order; JS Map / Set iteration follows insertion order,
modelled with ordered association lists. -/

/-- points[i]; the source only indexes within bounds. -/
def getP (pts : List Vec3) (i : ℕ) : Vec3 := pts.getD i ⟨0, 0, 0⟩

def vec3Sub (a b : Vec3) : Vec3 := ⟨a.x - b.x, a.y - b.y, a.z - b.z⟩

def vec3Scale (v : Vec3) (s : ℝ) : Vec3 := ⟨v.x * s, v.y * s, v.z * s⟩

def vec3Dot (a b : Vec3) : ℝ := a.x * b.x + a.y * b.y + a.z * b.z

def vec3Cross (a b : Vec3) : Vec3 :=
  ⟨a.y * b.z - a.z * b.y, a.z * b.x - a.x * b.z, a.x * b.y - a.y * b.x⟩

noncomputable def vec3Length (v : Vec3) : ℝ :=
  Real.sqrt (v.x * v.x + v.y * v.y + v.z * v.z)

noncomputable def vec3Normalize (v : Vec3) : Vec3 :=
  if vec3Length v = 0 then ⟨0, 0, 0⟩ else vec3Scale v (1 / vec3Length v)

/-- A HullFace object: vertex indices, cached plane (normal, constant) and
the set of points assigned to the face (insertion order); faceId models JS
object identity. -/
structure HullFace where
  faceId : ℕ
  v0 : ℕ
  v1 : ℕ
  v2 : ℕ
  normal : Vec3
  constant : ℝ
  pts : List ℕ

/-- HullFace.computePlane, run at construction. -/
noncomputable def mkHullFace (points : List Vec3) (faceId a b c : ℕ) : HullFace :=
  let p0 := getP points a
  let p1 := getP points b
  let p2 := getP points c
  let n := vec3Normalize (vec3Cross (vec3Sub p1 p0) (vec3Sub p2 p0))
  ⟨faceId, a, b, c, n, vec3Dot n p0, []⟩

noncomputable def signedDistance (f : HullFace) (points : List Vec3) (i : ℕ) : ℝ :=
  vec3Dot f.normal (getP points i) - f.constant

/-- isOutside: signedDistance > 1e-9. -/
noncomputable def isOutside (f : HullFace) (points : List Vec3) (i : ℕ) : Prop :=
  signedDistance f points i > 1e-9

noncomputable instance (f : HullFace) (points : List Vec3) (i : ℕ) :
    Decidable (isOutside f points i) := by
  unfold isOutside
  infer_instance

noncomputable def faceCentroid (f : HullFace) (points : List Vec3) : Vec3 :=
  let p0 := getP points f.v0
  let p1 := getP points f.v1
  let p2 := getP points f.v2
  ⟨(p0.x + p1.x + p2.x) / 3, (p0.y + p1.y + p2.y) / 3, (p0.z + p1.z + p2.z) / 3⟩

/-- HullFace.flip: swap the first two vertices and negate the plane. -/
def flipFace (f : HullFace) : HullFace :=
  { f with v0 := f.v1, v1 := f.v0,
           normal := vec3Scale f.normal (-1), constant := -f.constant }

/-- HullFace.addPoint (a JS Set add: no duplicates, insertion order kept). -/
def addPoint (f : HullFace) (i : ℕ) : HullFace :=
  if i ∈ f.pts then f else { f with pts := f.pts ++ [i] }

/-- HullFace.clearPoints. -/
def clearPoints (f : HullFace) : HullFace := { f with pts := [] }

/-- HullFace.getFurthestPoint: scan the assigned points in insertion order,
keeping the strictly largest signed distance; the JS sentinel
(idx = -1, dist = 0) is (none, 0). -/
noncomputable def getFurthestPoint (f : HullFace) (points : List Vec3) : Option ℕ × ℝ :=
  f.pts.foldl (fun best i =>
    let d := signedDistance f points i
    if d > best.2 then (some i, d) else best) (none, 0)

/-- HullFace.hasVertex. -/
def hasVertex (f : HullFace) (v : ℕ) : Bool :=
  f.v0 == v || f.v1 == v || f.v2 == v

/-- sharesEdge: the two faces have exactly 2 vertex slots of b whose value
occurs among a's vertices (the JS builds a Set from a's vertices and counts
over b's three slots). -/
def sharesEdge (a b : HullFace) : Bool :=
  (([b.v0, b.v1, b.v2].filter (fun v => [a.v0, a.v1, a.v2].contains v)).length) == 2

/-- The running minima/maxima indices of the extreme-point scan. -/
structure Extremes where
  minX : ℕ
  maxX : ℕ
  minY : ℕ
  maxY : ℕ
  minZ : ℕ
  maxZ : ℕ

/-- The scan for the 6 axial extreme points (indices start at 0, the loop
runs i = 1 .. n-1, strict comparisons). -/
noncomputable def findExtremes (points : List Vec3) : Extremes :=
  ((List.range points.length).drop 1).foldl (fun e i =>
    let p := getP points i
    let e1 := if p.x < (getP points e.minX).x then { e with minX := i } else e
    let e2 := if p.x > (getP points e1.maxX).x then { e1 with maxX := i } else e1
    let e3 := if p.y < (getP points e2.minY).y then { e2 with minY := i } else e2
    let e4 := if p.y > (getP points e3.maxY).y then { e3 with maxY := i } else e3
    let e5 := if p.z < (getP points e4.minZ).z then { e4 with minZ := i } else e4
    if p.z > (getP points e5.maxZ).z then { e5 with maxZ := i } else e5)
    ⟨0, 0, 0, 0, 0, 0⟩

/-- Array.from(new Set(list)): deduplicate keeping first occurrences. -/
def dedupFirstAux (seen : List ℕ) : List ℕ → List ℕ
  | [] => []
  | a :: l => if a ∈ seen then dedupFirstAux seen l
              else a :: dedupFirstAux (a :: seen) l

def dedupFirst (l : List ℕ) : List ℕ := dedupFirstAux [] l

/-- The unique axial extremes, in [minX, maxX, minY, maxY, minZ, maxZ] order. -/
noncomputable def uniqueExtremes (points : List Vec3) : List ℕ :=
  let e := findExtremes points
  dedupFirst [e.minX, e.maxX, e.minY, e.maxY, e.minZ, e.maxZ]

/-- The four seed tetrahedron faces, with fresh ids 0-3. -/
noncomputable def seedFaces (points : List Vec3) (i0 i1 i2 i3 : ℕ) : List HullFace :=
  [mkHullFace points 0 i0 i1 i2,
   mkHullFace points 1 i0 i2 i3,
   mkHullFace points 2 i0 i3 i1,
   mkHullFace points 3 i1 i3 i2]

/-- The orientation pass: for i = 1 .. faces.length-1, flip faces[i] when its
normal points towards the centroid of faces[0] (the source recomputes
faces[0]'s centroid each iteration; face 0 itself is never re-oriented). -/
noncomputable def orientSeedFaces (points : List Vec3) (faces : List HullFace) : List HullFace :=
  ((List.range faces.length).drop 1).foldl (fun fs i =>
    match fs.get? 0, fs.get? i with
    | some f0, some fi =>
        let toRef := vec3Sub (faceCentroid f0 points) (faceCentroid fi points)
        if vec3Dot toRef fi.normal > 0 then fs.set i (flipFace fi) else fs
    | _, _ => fs) faces

/-- Assign point i to the first face (in list order) that sees it, then stop
(the break in the source's assignment loop). -/
noncomputable def assignToFirstFace (points : List Vec3) (i : ℕ) :
    List HullFace → List HullFace
  | [] => []
  | f :: fs =>
      if isOutside f points i then addPoint f i :: fs
      else f :: assignToFirstFace points i fs

/-- The initial point-assignment loop over all non-seed points. -/
noncomputable def assignInitialPoints (points : List Vec3) (initialIndices : List ℕ)
    (faces : List HullFace) : List HullFace :=
  (List.range points.length).foldl (fun fs i =>
    if i ∈ initialIndices then fs else assignToFirstFace points i fs) faces

/-- The visibility walk: a depth-first search from the best face over faces
sharing an edge, keeping those that see bestPoint.  The JS stack pushes and
pops at the array end; the head-of-list stack here pops in the same order,
so adjacent faces (collected in faces order) are pushed reversed.  seen
stores face ids (JS object identities).  The fuel bounds the loop: each
pop either discards a seen id or marks a new one, and pushes happen only
when marking, at most faces.length each, so (faces.length + 1)^2 steps
always suffice (the find? none case cannot occur: the stack only ever holds
ids of faces). -/
noncomputable def collectVisible (points : List Vec3) (faces : List HullFace) (bestPoint : ℕ) :
    ℕ → List ℕ → List ℕ → List ℕ → List ℕ
  | 0, _, _, visible => visible
  | fuel + 1, stack, seen, visible =>
      match stack with
      | [] => visible
      | fid :: rest =>
          if fid ∈ seen then collectVisible points faces bestPoint fuel rest seen visible
          else
            match faces.find? (fun f => f.faceId == fid) with
            | none => collectVisible points faces bestPoint fuel rest (fid :: seen) visible
            | some face =>
                if isOutside face points bestPoint then
                  collectVisible points faces bestPoint fuel
                    (((faces.filter (fun other =>
                        other.faceId != face.faceId
                          && !((fid :: seen).contains other.faceId)
                          && sharesEdge face other)).map (fun f => f.faceId)).reverse ++ rest)
                    (fid :: seen) (visible ++ [fid])
                else collectVisible points faces bestPoint fuel rest (fid :: seen) visible

/-- The unordered key of an edge, as in the source's min/max string key. -/
def edgeKey (a b : ℕ) : ℕ × ℕ := if a < b then (a, b) else (b, a)

/-- One step of the source's edgeCount map: first occurrence inserts the
oriented edge at the end, a second occurrence deletes the entry (a third
would re-insert, as in the source). -/
def horizonStep (acc : List ((ℕ × ℕ) × (ℕ × ℕ))) (e : ℕ × ℕ) :
    List ((ℕ × ℕ) × (ℕ × ℕ)) :=
  let k := edgeKey e.1 e.2
  if acc.any (fun kv => kv.1 == k) then acc.filter (fun kv => kv.1 != k)
  else acc ++ [(k, e)]

/-- findHorizonEdges2: edges of the visible faces that appear exactly once,
with the orientation of their latest insertion, in map insertion order. -/
def findHorizonEdges2 (visibleFaces : List HullFace) : List (ℕ × ℕ) :=
  (((visibleFaces.map (fun f => [(f.v0, f.v1), (f.v1, f.v2), (f.v2, f.v0)])).flatten).foldl
    horizonStep []).map (fun kv => kv.2)

/-- The best-face scan at the top of each expansion iteration: strict
improvement on the distance, starting from (null, -1, 0) modelled as
(none, none, 0). -/
noncomputable def scanBest (points : List Vec3) (faces : List HullFace) :
    Option ℕ × Option ℕ × ℝ :=
  faces.foldl (fun best f =>
    let fp := getFurthestPoint f points
    if fp.2 > best.2.2 then (some f.faceId, fp.1, fp.2) else best)
    (none, none, 0)

/-- Re-assign one orphaned point to the first face (in list order) that
contains bestPoint as a vertex and sees the point (the source iterates all
faces and breaks at the first hit). -/
noncomputable def addPointFirst (points : List Vec3) (bestPoint p : ℕ) :
    List HullFace → List HullFace
  | [] => []
  | f :: fs =>
      if hasVertex f bestPoint ∧ isOutside f points p then addPoint f p :: fs
      else f :: addPointFirst points bestPoint p fs

/-- The reassignment loop over all points of the removed faces, in face
order then per-face insertion order. -/
noncomputable def reassignPoints (points : List Vec3) (bestPoint : ℕ) (orphans : List ℕ)
    (faces : List HullFace) : List HullFace :=
  orphans.foldl (fun fs p => addPointFirst points bestPoint p fs) faces

/-- One iteration of the expansion loop.  Returns the updated face list, the
next fresh face id, and whether the source's break was taken. -/
noncomputable def expandStep (points : List Vec3) (faces : List HullFace) (nextId : ℕ) :
    List HullFace × ℕ × Bool :=
  let best := scanBest points faces
  if best.1 = none ∨ best.2.1 = none ∨ best.2.2 < 1e-9 then (faces, nextId, true)
  else
    match best.1, best.2.1 with
    | some bfId, some bestPoint =>
        let visibleIds := collectVisible points faces bestPoint
          ((faces.length + 1) * (faces.length + 1)) [bfId] [] []
        let visibleFaces := visibleIds.filterMap
          (fun fid => faces.find? (fun f => f.faceId == fid))
        if visibleFaces.isEmpty then
          (faces.map (fun f => if f.faceId == bfId then clearPoints f else f), nextId, false)
        else
          let horizon := findHorizonEdges2 visibleFaces
          let remaining := faces.filter (fun f => !(visibleIds.contains f.faceId))
          let newFaces := horizon.enum.map (fun ke =>
            mkHullFace points (nextId + ke.1) ke.2.1 ke.2.2 bestPoint)
          let orphans := (visibleFaces.map (fun f => f.pts)).flatten
          (reassignPoints points bestPoint orphans (remaining ++ newFaces),
            nextId + horizon.length, false)
    | _, _ => (faces, nextId, true)

/-- The expansion while-loop, at most fuel = 3 * n iterations. -/
noncomputable def expandLoop (points : List Vec3) :
    ℕ → List HullFace → ℕ → List HullFace × ℕ
  | 0, faces, nextId => (faces, nextId)
  | fuel + 1, faces, nextId =>
      let r := expandStep points faces nextId
      if r.2.2 then (r.1, r.2.1) else expandLoop points fuel r.1 r.2.1

/-- JS Set insertion order: append if not seen. -/
def insertUnique (l : List ℕ) (v : ℕ) : List ℕ := if v ∈ l then l else l ++ [v]

/-- One extraction-stage step: add a face's three vertex ids to the set. -/
def vertexInsert (acc : List ℕ) (f : HullFace) : List ℕ :=
  insertUnique (insertUnique (insertUnique acc f.v0) f.v1) f.v2

/-- The vertexSet of the extraction stage, in insertion order. -/
def vertexIdsOf (faces : List HullFace) : List ℕ :=
  faces.foldl vertexInsert []

/-- vertexList: the vertex ids sorted ascending (the source sorts with
(a, b) => a - b; on this duplicate-free list any ascending sort yields the
same list, and insertionSort is one). -/
def vertexListOf (faces : List HullFace) : List ℕ :=
  (vertexIdsOf faces).insertionSort (· ≤ ·)

/-- The result of quickHull3D / computeConvexHull: a flat xyz vertex array
and a flat triangle index array. -/
structure HullResult where
  vertices : List ℝ
  faces : List ℕ

/-- The extraction stage: remap each face's vertex ids through the position
of the id in the sorted vertex list (the source's vertexMap). -/
noncomputable def extractResult (points : List Vec3) (faces : List HullFace) : HullResult :=
  let vlist := vertexListOf faces
  ⟨(vlist.map (fun idx =>
      [(getP points idx).x, (getP points idx).y, (getP points idx).z])).flatten,
   (faces.map (fun f =>
      [vlist.indexOf f.v0, vlist.indexOf f.v1, vlist.indexOf f.v2])).flatten⟩

/-- Coordinatewise minimum; the source seeds the fold with Infinity, the
head-seeded fold here computes the same value on the nonempty lists that
reach it. -/
noncomputable def foldMinR (f : Vec3 → ℝ) : List Vec3 → ℝ
  | [] => 0
  | p :: rest => rest.foldl (fun m q => min m (f q)) (f p)

/-- Coordinatewise maximum (source seed: -Infinity). -/
noncomputable def foldMaxR (f : Vec3 → ℝ) : List Vec3 → ℝ
  | [] => 0
  | p :: rest => rest.foldl (fun m q => max m (f q)) (f p)

/-- The fixed 12-triangle index list of the bounding-box fallback. -/
def bboxFaces : List ℕ :=
  [0, 2, 1,  0, 3, 2,
   4, 5, 6,  4, 6, 7,
   0, 1, 5,  0, 5, 4,
   2, 3, 7,  2, 7, 6,
   3, 0, 4,  3, 4, 7,
   1, 2, 6,  1, 6, 5]

/-- boundingBoxFallback: the 8 axis-aligned box corners (flat xyz, in source
order) with the fixed 12 triangles. -/
noncomputable def boundingBoxFallback (points : List Vec3) : HullResult :=
  let minX := foldMinR (fun p => p.x) points
  let maxX := foldMaxR (fun p => p.x) points
  let minY := foldMinR (fun p => p.y) points
  let maxY := foldMaxR (fun p => p.y) points
  let minZ := foldMinR (fun p => p.z) points
  let maxZ := foldMaxR (fun p => p.z) points
  ⟨[minX, minY, minZ,
    maxX, minY, minZ,
    maxX, maxY, minZ,
    minX, maxY, minZ,
    minX, minY, maxZ,
    maxX, minY, maxZ,
    maxX, maxY, maxZ,
    minX, maxY, maxZ], bboxFaces⟩

/-- The first four unique extremes seeding the tetrahedron. -/
noncomputable def hullSeedIndices (points : List Vec3) : ℕ × ℕ × ℕ × ℕ :=
  let uniq := uniqueExtremes points
  (uniq.getD 0 0, uniq.getD 1 0, uniq.getD 2 0, uniq.getD 3 0)

/-- The face list after seeding, orientation, initial assignment and the
expansion loop (maxIterations = n * 3; fresh ids continue from 4). -/
noncomputable def hullFacesAfterLoop (points : List Vec3) : List HullFace :=
  let s := hullSeedIndices points
  let faces0 := orientSeedFaces points (seedFaces points s.1 s.2.1 s.2.2.1 s.2.2.2)
  let faces1 := assignInitialPoints points [s.1, s.2.1, s.2.2.1, s.2.2.2] faces0
  (expandLoop points (points.length * 3) faces1 4).1

/-- quickHull3D (solvers.ts lines 562-737). -/
noncomputable def quickHull3D (points : List Vec3) : HullResult :=
  if points.length < 4 then ⟨[], []⟩
  else if (uniqueExtremes points).length < 4 then boundingBoxFallback points
  else
    let fin := hullFacesAfterLoop points
    if fin.isEmpty then boundingBoxFallback points
    else
      let res := extractResult points fin
      if res.vertices.length < 12 ∨ res.faces.length < 4 then boundingBoxFallback points
      else res

/-- downsamplePoints (solvers.ts lines 856-908): grid-based downsampling,
one representative per cell, replaced by a point farther from the box
centre; cells keep map insertion order.  Math.cbrt is the real cube root
(the argument is > 1 on the inputs that reach it); the source also computes
an unused maxRange, omitted here. -/
noncomputable def downsamplePoints (points : List Vec3) (targetCount : ℕ) : List Vec3 :=
  if points.length ≤ targetCount then points
  else
    let gridSize : ℤ := ⌈((points.length : ℝ) / (targetCount : ℝ)) ^ ((1 : ℝ) / 3)⌉
    let minX := foldMinR (fun p => p.x) points
    let maxX := foldMaxR (fun p => p.x) points
    let minY := foldMinR (fun p => p.y) points
    let maxY := foldMaxR (fun p => p.y) points
    let minZ := foldMinR (fun p => p.z) points
    let maxZ := foldMaxR (fun p => p.z) points
    let xRange := if maxX - minX = 0 then 1 else maxX - minX
    let yRange := if maxY - minY = 0 then 1 else maxY - minY
    let zRange := if maxZ - minZ = 0 then 1 else maxZ - minZ
    let cx := (minX + maxX) / 2
    let cy := (minY + maxY) / 2
    let cz := (minZ + maxZ) / 2
    (points.foldl (fun grid p =>
      let gx : ℤ := ⌊(p.x - minX) / xRange * (gridSize : ℝ)⌋
      let gy : ℤ := ⌊(p.y - minY) / yRange * (gridSize : ℝ)⌋
      let gz : ℤ := ⌊(p.z - minZ) / zRange * (gridSize : ℝ)⌋
      let key := (gx, gy, gz)
      match grid.find? (fun kv => kv.1 == key) with
      | none => grid ++ [(key, p)]
      | some kv =>
          let dE := (kv.2.x - cx) ^ 2 + (kv.2.y - cy) ^ 2 + (kv.2.z - cz) ^ 2
          let dN := (p.x - cx) ^ 2 + (p.y - cy) ^ 2 + (p.z - cz) ^ 2
          if dN > dE then grid.map (fun kv2 => if kv2.1 == key then (key, p) else kv2)
          else grid)
      ([] : List ((ℤ × ℤ × ℤ) × Vec3))).map (fun kv => kv.2)

/-- computeConvexHull (solvers.ts lines 541-556): fewer than 4 points are
returned flattened with no faces; larger clouds are downsampled above 2000
points and passed to quickHull3D.  The input entries are xyz triples, typed
Vec3 here, so Array.flat is the triple concatenation. -/
noncomputable def computeConvexHull (pointsArray : List Vec3) : HullResult :=
  if pointsArray.length < 4 then
    ⟨(pointsArray.map (fun p => [p.x, p.y, p.z])).flatten, []⟩
  else
    quickHull3D (if pointsArray.length > 2000 then downsamplePoints pointsArray 2000
                 else pointsArray)

/-! ### Helper lemmas for the hull theorems -/

lemma mem_insertUnique_self (l : List ℕ) (v : ℕ) : v ∈ insertUnique l v := by
  unfold insertUnique
  by_cases h : v ∈ l
  · rw [if_pos h]; exact h
  · rw [if_neg h]; exact List.mem_append_right _ (List.mem_singleton.2 rfl)

lemma mem_insertUnique_of_mem (l : List ℕ) (v x : ℕ) (h : x ∈ l) : x ∈ insertUnique l v := by
  unfold insertUnique
  by_cases hv : v ∈ l
  · rw [if_pos hv]; exact h
  · rw [if_neg hv]; exact List.mem_append_left _ h

lemma mem_foldl_vertexInsert_of_mem (faces : List HullFace) :
    ∀ acc : List ℕ, ∀ x, x ∈ acc → x ∈ faces.foldl vertexInsert acc := by
  induction faces with
  | nil => intro acc x hx; exact hx
  | cons f faces ih =>
      intro acc x hx
      rw [List.foldl_cons]
      exact ih _ x (mem_insertUnique_of_mem _ _ _
        (mem_insertUnique_of_mem _ _ _ (mem_insertUnique_of_mem _ _ _ hx)))

lemma mem_foldl_vertexInsert (f : HullFace) (faces : List HullFace) (hf : f ∈ faces) :
    ∀ acc : List ℕ,
      f.v0 ∈ faces.foldl vertexInsert acc
      ∧ f.v1 ∈ faces.foldl vertexInsert acc
      ∧ f.v2 ∈ faces.foldl vertexInsert acc := by
  induction faces with
  | nil => cases hf
  | cons g faces ih =>
      intro acc
      rw [List.foldl_cons]
      rcases List.mem_cons.1 hf with h | h
      · subst h
        refine ⟨mem_foldl_vertexInsert_of_mem faces _ _ ?_,
          mem_foldl_vertexInsert_of_mem faces _ _ ?_,
          mem_foldl_vertexInsert_of_mem faces _ _ ?_⟩
        · exact mem_insertUnique_of_mem _ _ _
            (mem_insertUnique_of_mem _ _ _ (mem_insertUnique_self _ _))
        · exact mem_insertUnique_of_mem _ _ _ (mem_insertUnique_self _ _)
        · exact mem_insertUnique_self _ _
      · exact ih h _

lemma mem_vertexListOf (faces : List HullFace) (x : ℕ) :
    x ∈ vertexListOf faces ↔ x ∈ vertexIdsOf faces := by
  unfold vertexListOf
  exact (List.perm_insertionSort _ _).mem_iff

lemma flatten_triples_length {α β : Type} (l : List α) (f g h : α → β) :
    ((l.map (fun p => [f p, g p, h p])).flatten).length = 3 * l.length := by
  induction l with
  | nil => simp
  | cons a l ih => simp [ih]; ring

lemma flatten_triples_getD (l : List Vec3) :
    ∀ i, i < l.length →
      ((l.map (fun p => [p.x, p.y, p.z])).flatten).getD (3 * i) 0 = (getP l i).x
      ∧ ((l.map (fun p => [p.x, p.y, p.z])).flatten).getD (3 * i + 1) 0 = (getP l i).y
      ∧ ((l.map (fun p => [p.x, p.y, p.z])).flatten).getD (3 * i + 2) 0 = (getP l i).z := by
  induction l with
  | nil => intro i hi; simp at hi
  | cons a l ih =>
      intro i hi
      cases i with
      | zero => simp [getP]
      | succ i =>
          have h0 : 3 * (i + 1) = 3 * i + 1 + 1 + 1 := by ring
          have h1 : 3 * (i + 1) + 1 = 3 * i + 1 + 1 + 1 + 1 := by ring
          have h2 : 3 * (i + 1) + 2 = 3 * i + 2 + 1 + 1 + 1 := by ring
          have hi2 : i < l.length := by simpa using Nat.lt_of_succ_lt_succ hi
          have hrec := ih i hi2
          have hgp : getP (a :: l) (i + 1) = getP l i := by simp [getP]
          refine ⟨?_, ?_, ?_⟩
          · rw [h0, hgp]
            simpa using hrec.1
          · rw [h1, hgp]
            simpa [Nat.add_assoc] using hrec.2.1
          · rw [h2, hgp]
            simpa [Nat.add_assoc] using hrec.2.2

/-- Every triangle index of the extraction stage refers to a vertex of the
deduplicated vertex array. -/
lemma extractResult_faces_bounded (points : List Vec3) (faces : List HullFace) :
    ((extractResult points faces).faces.all
      (fun i => decide (i < (extractResult points faces).vertices.length / 3))) = true := by
  unfold extractResult
  dsimp only
  rw [List.all_eq_true]
  intro i hi
  rw [decide_eq_true_eq]
  rw [flatten_triples_length, Nat.mul_div_cancel_left _ (by norm_num)]
  rw [List.mem_flatten] at hi
  rcases hi with ⟨l, hl, hil⟩
  rw [List.mem_map] at hl
  rcases hl with ⟨f, hf, rfl⟩
  have hmem := mem_foldl_vertexInsert f faces hf []
  rcases List.mem_cons.1 hil with h | h
  · subst h
    exact List.indexOf_lt_length.2 ((mem_vertexListOf faces _).2 hmem.1)
  rcases List.mem_cons.1 h with h | h
  · subst h
    exact List.indexOf_lt_length.2 ((mem_vertexListOf faces _).2 hmem.2.1)
  rcases List.mem_cons.1 h with h | h
  · subst h
    exact List.indexOf_lt_length.2 ((mem_vertexListOf faces _).2 hmem.2.2)
  · cases h

/-- Every index of the bounding-box fallback is below 8 = 24 / 3. -/
lemma boundingBoxFallback_faces_bounded (points : List Vec3) :
    ((boundingBoxFallback points).faces.all
      (fun i => decide (i < (boundingBoxFallback points).vertices.length / 3))) = true := by
  have hv : (boundingBoxFallback points).vertices.length = 24 := rfl
  have hf : (boundingBoxFallback points).faces = bboxFaces := rfl
  rw [List.all_eq_true]
  intro i hi
  rw [decide_eq_true_eq, hv]
  rw [hf] at hi
  have h8 : ∀ j ∈ bboxFaces, j < 8 := by decide
  have := h8 i hi
  omega

/-- C10: every triangle index returned by quickHull3D (both the QuickHull
extraction and the bounding-box fallback) is a valid reference into the
returned flat vertex array: it is strictly below vertices.length / 3. -/
theorem quickHull3D_faces_in_bounds (points : List Vec3) :
    ((quickHull3D points).faces.all
      (fun i => decide (i < (quickHull3D points).vertices.length / 3))) = true := by
  unfold quickHull3D
  by_cases h1 : points.length < 4
  · rw [if_pos h1]
    rfl
  rw [if_neg h1]
  by_cases h2 : (uniqueExtremes points).length < 4
  · rw [if_pos h2]
    exact boundingBoxFallback_faces_bounded points
  rw [if_neg h2]
  dsimp only
  by_cases h3 : (hullFacesAfterLoop points).isEmpty = true
  · rw [if_pos h3]
    exact boundingBoxFallback_faces_bounded points
  rw [if_neg h3]
  by_cases h4 : (extractResult points (hullFacesAfterLoop points)).vertices.length < 12
      ∨ (extractResult points (hullFacesAfterLoop points)).faces.length < 4
  · rw [if_pos h4]
    exact boundingBoxFallback_faces_bounded points
  · rw [if_neg h4]
    exact extractResult_faces_bounded points (hullFacesAfterLoop points)

/-- C9: fewer than 4 input points are returned flattened in order with an
empty face array (and no error: computeConvexHull is total). -/
theorem computeConvexHull_small_input (pointsArray : List Vec3)
    (h : pointsArray.length < 4) :
    computeConvexHull pointsArray
        = ⟨(pointsArray.map (fun p => [p.x, p.y, p.z])).flatten, []⟩
      ∧ (computeConvexHull pointsArray).vertices.length = 3 * pointsArray.length
      ∧ (computeConvexHull pointsArray).faces = []
      ∧ ∀ i, i < pointsArray.length →
          (computeConvexHull pointsArray).vertices.getD (3 * i) 0 = (getP pointsArray i).x
          ∧ (computeConvexHull pointsArray).vertices.getD (3 * i + 1) 0 = (getP pointsArray i).y
          ∧ (computeConvexHull pointsArray).vertices.getD (3 * i + 2) 0
              = (getP pointsArray i).z := by
  have he : computeConvexHull pointsArray
      = ⟨(pointsArray.map (fun p => [p.x, p.y, p.z])).flatten, []⟩ := by
    unfold computeConvexHull
    rw [if_pos h]
  refine ⟨he, ?_, ?_, ?_⟩
  · rw [he]
    exact flatten_triples_length pointsArray _ _ _
  · rw [he]
  · intro i hi
    rw [he]
    exact flatten_triples_getD pointsArray i hi

/-- Witness for C9 on a two-point input. -/
theorem computeConvexHull_small_input_witness :
    (([⟨1, 2, 3⟩, ⟨4, 5, 6⟩] : List Vec3).length < 4)
    ∧ (computeConvexHull [⟨1, 2, 3⟩, ⟨4, 5, 6⟩]
        = ⟨(([⟨1, 2, 3⟩, ⟨4, 5, 6⟩] : List Vec3).map (fun p => [p.x, p.y, p.z])).flatten, []⟩
      ∧ (computeConvexHull [⟨1, 2, 3⟩, ⟨4, 5, 6⟩]).vertices.length
          = 3 * ([⟨1, 2, 3⟩, ⟨4, 5, 6⟩] : List Vec3).length
      ∧ (computeConvexHull [⟨1, 2, 3⟩, ⟨4, 5, 6⟩]).faces = []
      ∧ ∀ i, i < ([⟨1, 2, 3⟩, ⟨4, 5, 6⟩] : List Vec3).length →
          (computeConvexHull [⟨1, 2, 3⟩, ⟨4, 5, 6⟩]).vertices.getD (3 * i) 0
              = (getP [⟨1, 2, 3⟩, ⟨4, 5, 6⟩] i).x
          ∧ (computeConvexHull [⟨1, 2, 3⟩, ⟨4, 5, 6⟩]).vertices.getD (3 * i + 1) 0
              = (getP [⟨1, 2, 3⟩, ⟨4, 5, 6⟩] i).y
          ∧ (computeConvexHull [⟨1, 2, 3⟩, ⟨4, 5, 6⟩]).vertices.getD (3 * i + 2) 0
              = (getP [⟨1, 2, 3⟩, ⟨4, 5, 6⟩] i).z) := by
  have h : ([⟨1, 2, 3⟩, ⟨4, 5, 6⟩] : List Vec3).length < 4 := by norm_num
  exact ⟨h, computeConvexHull_small_input [⟨1, 2, 3⟩, ⟨4, 5, 6⟩] h⟩

/-- The degeneracy conditions under which quickHull3D takes the bounding-box
fallback: fewer than 4 unique axial extremes, or a collapsed hull after the
expansion loop (no faces left, fewer than 4 vertices = 12 flat entries, or
fewer than 4 flat face-index entries). -/
def degenerateDetected (points : List Vec3) : Prop :=
  4 ≤ points.length ∧
  ((uniqueExtremes points).length < 4 ∨
   (4 ≤ (uniqueExtremes points).length ∧
    ((hullFacesAfterLoop points).isEmpty = true ∨
     ((hullFacesAfterLoop points).isEmpty = false ∧
      ((extractResult points (hullFacesAfterLoop points)).vertices.length < 12 ∨
       (extractResult points (hullFacesAfterLoop points)).faces.length < 4)))))

/-- C7: whenever quickHull3D detects a degenerate input or result, it
returns the axis-aligned bounding box of the input as an ordinary result
with exactly 8 corner vertices (24 flat coordinates) and 12 triangles
(36 flat indices, the fixed bboxFaces list). -/
theorem quickHull3D_degenerate_fallback (points : List Vec3)
    (h : degenerateDetected points) :
    quickHull3D points = boundingBoxFallback points
      ∧ (boundingBoxFallback points).vertices.length = 24
      ∧ (boundingBoxFallback points).faces = bboxFaces
      ∧ (boundingBoxFallback points).faces.length = 36 := by
  obtain ⟨hn, hcase⟩ := h
  refine ⟨?_, rfl, rfl, rfl⟩
  unfold quickHull3D
  rw [if_neg (by omega)]
  rcases hcase with h2 | ⟨h2, h3⟩
  · rw [if_pos h2]
  · rw [if_neg (by omega)]
    dsimp only
    rcases h3 with h4 | ⟨h4, h5⟩
    · rw [if_pos h4]
    · rw [if_neg (by simp [h4]), if_pos h5]

/-- A degenerate input for the C7 witness: four coincident points. -/
def ptsDegenerate : List Vec3 := [⟨0, 0, 0⟩, ⟨0, 0, 0⟩, ⟨0, 0, 0⟩, ⟨0, 0, 0⟩]

lemma findExtremes_ptsDegenerate : findExtremes ptsDegenerate = ⟨0, 0, 0, 0, 0, 0⟩ := by
  norm_num [findExtremes, ptsDegenerate, getP, List.range_succ]

lemma uniqueExtremes_ptsDegenerate : uniqueExtremes ptsDegenerate = [0] := by
  unfold uniqueExtremes
  rw [findExtremes_ptsDegenerate]
  rfl

/-- Witness for C7 on four coincident points (a single unique extreme). -/
theorem quickHull3D_degenerate_fallback_witness :
    degenerateDetected ptsDegenerate
    ∧ (quickHull3D ptsDegenerate = boundingBoxFallback ptsDegenerate
      ∧ (boundingBoxFallback ptsDegenerate).vertices.length = 24
      ∧ (boundingBoxFallback ptsDegenerate).faces = bboxFaces
      ∧ (boundingBoxFallback ptsDegenerate).faces.length = 36) := by
  have hd : degenerateDetected ptsDegenerate := by
    refine ⟨by norm_num [ptsDegenerate], Or.inl ?_⟩
    rw [uniqueExtremes_ptsDegenerate]
    norm_num
  exact ⟨hd, quickHull3D_degenerate_fallback ptsDegenerate hd⟩


/-! ### C6: orientation of the returned mesh -/

/-- Evaluation of vec3Normalize when the squared length is a known square. -/
lemma vec3Normalize_eval (v : Vec3) (len : ℝ) (hpos : 0 < len)
    (hlen : v.x * v.x + v.y * v.y + v.z * v.z = len * len) :
    vec3Normalize v = ⟨v.x / len, v.y / len, v.z / len⟩ := by
  have hl : vec3Length v = len := by
    unfold vec3Length
    rw [hlen]
    exact Real.sqrt_mul_self (le_of_lt hpos)
  unfold vec3Normalize
  rw [hl, if_neg (ne_of_gt hpos)]
  unfold vec3Scale
  rw [Vec3.mk.injEq]
  exact ⟨mul_one_div v.x len, mul_one_div v.y len, mul_one_div v.z len⟩

/-- Evaluation of mkHullFace from a computed cross product and its length. -/
lemma mkHullFace_eval (points : List Vec3) (fid a b c : ℕ) (cr : Vec3) (len : ℝ)
    (hcr : vec3Cross (vec3Sub (getP points b) (getP points a))
        (vec3Sub (getP points c) (getP points a)) = cr)
    (hpos : 0 < len)
    (hlen : cr.x * cr.x + cr.y * cr.y + cr.z * cr.z = len * len) :
    mkHullFace points fid a b c =
      ⟨fid, a, b, c, ⟨cr.x / len, cr.y / len, cr.z / len⟩,
       cr.x / len * (getP points a).x + cr.y / len * (getP points a).y
         + cr.z / len * (getP points a).z, []⟩ := by
  unfold mkHullFace
  dsimp only
  rw [hcr, vec3Normalize_eval cr len hpos hlen]
  rw [HullFace.mk.injEq]
  refine ⟨rfl, rfl, rfl, rfl, rfl, ?_, rfl⟩
  rfl

/-- Flipping a face keeps its centroid (only the vertex order changes). -/
lemma faceCentroid_flip (f : HullFace) (points : List Vec3) :
    faceCentroid (flipFace f) points = faceCentroid f points := by
  unfold faceCentroid flipFace
  dsimp only
  rw [Vec3.mk.injEq]
  refine ⟨by ring, by ring, by ring⟩

/-- Dotting against a flipped normal negates the dot product. -/
lemma flipFace_normal_dot (a : Vec3) (f : HullFace) :
    vec3Dot a (flipFace f).normal = -vec3Dot a f.normal := by
  unfold flipFace vec3Scale vec3Dot
  dsimp only
  ring

/-- The orientation pass on a 4-face list, written out: face 0 is kept as is,
each of faces 1-3 is flipped exactly when its normal points towards the
centroid of face 0. -/
lemma orientSeedFaces_quad (points : List Vec3) (g0 g1 g2 g3 : HullFace) :
    orientSeedFaces points [g0, g1, g2, g3] =
      [g0,
       if vec3Dot (vec3Sub (faceCentroid g0 points) (faceCentroid g1 points)) g1.normal > 0
         then flipFace g1 else g1,
       if vec3Dot (vec3Sub (faceCentroid g0 points) (faceCentroid g2 points)) g2.normal > 0
         then flipFace g2 else g2,
       if vec3Dot (vec3Sub (faceCentroid g0 points) (faceCentroid g3 points)) g3.normal > 0
         then flipFace g3 else g3] := by
  unfold orientSeedFaces
  rw [show List.length [g0, g1, g2, g3] = 4 from rfl]
  rw [show (List.range 4).drop 1 = [1, 2, 3] from by decide]
  simp only [List.foldl_cons, List.foldl_nil, List.get?]
  by_cases h1 : vec3Dot (vec3Sub (faceCentroid g0 points) (faceCentroid g1 points)) g1.normal > 0
  · simp only [if_pos h1, List.set, List.get?]
    by_cases h2 : vec3Dot (vec3Sub (faceCentroid g0 points) (faceCentroid g2 points)) g2.normal > 0
    · simp only [if_pos h2, List.set, List.get?]
      by_cases h3 : vec3Dot (vec3Sub (faceCentroid g0 points) (faceCentroid g3 points)) g3.normal > 0
      · simp only [if_pos h3, List.set]
      · simp only [if_neg h3, List.set]
    · simp only [if_neg h2, List.set, List.get?]
      by_cases h3 : vec3Dot (vec3Sub (faceCentroid g0 points) (faceCentroid g3 points)) g3.normal > 0
      · simp only [if_pos h3, List.set]
      · simp only [if_neg h3, List.set]
  · simp only [if_neg h1, List.set, List.get?]
    by_cases h2 : vec3Dot (vec3Sub (faceCentroid g0 points) (faceCentroid g2 points)) g2.normal > 0
    · simp only [if_pos h2, List.set, List.get?]
      by_cases h3 : vec3Dot (vec3Sub (faceCentroid g0 points) (faceCentroid g3 points)) g3.normal > 0
      · simp only [if_pos h3, List.set]
      · simp only [if_neg h3, List.set]
    · simp only [if_neg h2, List.set, List.get?]
      by_cases h3 : vec3Dot (vec3Sub (faceCentroid g0 points) (faceCentroid g3 points)) g3.normal > 0
      · simp only [if_pos h3, List.set]
      · simp only [if_neg h3, List.set]

/-- A rational tetrahedron whose four seed faces all have rational plane
data: (0,0,0), (1,0,0), (0,12,0), (0,3,4). -/
def tetraPts : List Vec3 := [⟨0, 0, 0⟩, ⟨1, 0, 0⟩, ⟨0, 12, 0⟩, ⟨0, 3, 4⟩]

lemma findExtremes_tetra : findExtremes tetraPts = ⟨0, 1, 0, 2, 0, 3⟩ := by
  norm_num [findExtremes, tetraPts, getP, List.range_succ]

lemma uniqueExtremes_tetra : uniqueExtremes tetraPts = [0, 1, 2, 3] := by
  unfold uniqueExtremes
  rw [findExtremes_tetra]
  rfl

lemma hullSeedIndices_tetra : hullSeedIndices tetraPts = (0, 1, 2, 3) := by
  unfold hullSeedIndices
  rw [uniqueExtremes_tetra]
  rfl

lemma mkHullFace_tetra0 :
    mkHullFace tetraPts 0 0 1 2 = ⟨0, 0, 1, 2, ⟨0, 0, 1⟩, 0, []⟩ := by
  have hcr : vec3Cross (vec3Sub (getP tetraPts 1) (getP tetraPts 0))
      (vec3Sub (getP tetraPts 2) (getP tetraPts 0)) = (⟨0, 0, 12⟩ : Vec3) := by
    norm_num [vec3Cross, vec3Sub, getP, tetraPts, Vec3.mk.injEq]
  rw [mkHullFace_eval tetraPts 0 0 1 2 ⟨0, 0, 12⟩ 12 hcr (by norm_num)
    (by show (0 : ℝ) * 0 + 0 * 0 + 12 * 12 = 12 * 12; norm_num)]
  rw [HullFace.mk.injEq, Vec3.mk.injEq]
  norm_num [getP, tetraPts]

lemma mkHullFace_tetra1 :
    mkHullFace tetraPts 1 0 2 3 = ⟨1, 0, 2, 3, ⟨1, 0, 0⟩, 0, []⟩ := by
  have hcr : vec3Cross (vec3Sub (getP tetraPts 2) (getP tetraPts 0))
      (vec3Sub (getP tetraPts 3) (getP tetraPts 0)) = (⟨48, 0, 0⟩ : Vec3) := by
    norm_num [vec3Cross, vec3Sub, getP, tetraPts, Vec3.mk.injEq]
  rw [mkHullFace_eval tetraPts 1 0 2 3 ⟨48, 0, 0⟩ 48 hcr (by norm_num)
    (by show (48 : ℝ) * 48 + 0 * 0 + 0 * 0 = 48 * 48; norm_num)]
  rw [HullFace.mk.injEq, Vec3.mk.injEq]
  norm_num [getP, tetraPts]

lemma mkHullFace_tetra2 :
    mkHullFace tetraPts 2 0 3 1 = ⟨2, 0, 3, 1, ⟨0, 4 / 5, -3 / 5⟩, 0, []⟩ := by
  have hcr : vec3Cross (vec3Sub (getP tetraPts 3) (getP tetraPts 0))
      (vec3Sub (getP tetraPts 1) (getP tetraPts 0)) = (⟨0, 4, -3⟩ : Vec3) := by
    norm_num [vec3Cross, vec3Sub, getP, tetraPts, Vec3.mk.injEq]
  rw [mkHullFace_eval tetraPts 2 0 3 1 ⟨0, 4, -3⟩ 5 hcr (by norm_num)
    (by show (0 : ℝ) * 0 + 4 * 4 + (-3 : ℝ) * -3 = 5 * 5; norm_num)]
  rw [HullFace.mk.injEq, Vec3.mk.injEq]
  norm_num [getP, tetraPts]

lemma mkHullFace_tetra3 :
    mkHullFace tetraPts 3 1 3 2
      = ⟨3, 1, 3, 2, ⟨-48 / 49, -4 / 49, -9 / 49⟩, -48 / 49, []⟩ := by
  have hcr : vec3Cross (vec3Sub (getP tetraPts 3) (getP tetraPts 1))
      (vec3Sub (getP tetraPts 2) (getP tetraPts 1)) = (⟨-48, -4, -9⟩ : Vec3) := by
    norm_num [vec3Cross, vec3Sub, getP, tetraPts, Vec3.mk.injEq]
  rw [mkHullFace_eval tetraPts 3 1 3 2 ⟨-48, -4, -9⟩ 49 hcr (by norm_num)
    (by show (-48 : ℝ) * -48 + (-4 : ℝ) * -4 + (-9 : ℝ) * -9 = 49 * 49; norm_num)]
  rw [HullFace.mk.injEq, Vec3.mk.injEq]
  norm_num [getP, tetraPts]

/-- The four seed faces of the tetrahedron, evaluated. -/
noncomputable def tetraSeed : List HullFace :=
  [⟨0, 0, 1, 2, ⟨0, 0, 1⟩, 0, []⟩,
   ⟨1, 0, 2, 3, ⟨1, 0, 0⟩, 0, []⟩,
   ⟨2, 0, 3, 1, ⟨0, 4 / 5, -3 / 5⟩, 0, []⟩,
   ⟨3, 1, 3, 2, ⟨-48 / 49, -4 / 49, -9 / 49⟩, -48 / 49, []⟩]

lemma seedFaces_tetra : seedFaces tetraPts 0 1 2 3 = tetraSeed := by
  unfold seedFaces tetraSeed
  rw [mkHullFace_tetra0, mkHullFace_tetra1, mkHullFace_tetra2, mkHullFace_tetra3]

/-- The seed faces after the orientation pass: faces 1-3 are flipped (their
normals pointed towards the centroid of face 0), face 0 is left pointing at
the tetrahedron interior. -/
noncomputable def tetraOriented : List HullFace :=
  [⟨0, 0, 1, 2, ⟨0, 0, 1⟩, 0, []⟩,
   ⟨1, 2, 0, 3, ⟨-1, 0, 0⟩, 0, []⟩,
   ⟨2, 3, 0, 1, ⟨0, -4 / 5, 3 / 5⟩, 0, []⟩,
   ⟨3, 3, 1, 2, ⟨48 / 49, 4 / 49, 9 / 49⟩, 48 / 49, []⟩]

lemma orientSeedFaces_tetra : orientSeedFaces tetraPts tetraSeed = tetraOriented := by
  unfold tetraSeed
  rw [orientSeedFaces_quad]
  norm_num [faceCentroid, vec3Sub, vec3Dot, getP, tetraPts, flipFace, vec3Scale,
    tetraOriented, HullFace.mk.injEq, Vec3.mk.injEq]

lemma tetraOriented_pts_empty : ∀ f ∈ tetraOriented, f.pts = [] := by
  intro f hf
  unfold tetraOriented at hf
  simp only [List.mem_cons] at hf
  rcases hf with h | h | h | h | h
  · subst h; rfl
  · subst h; rfl
  · subst h; rfl
  · subst h; rfl
  · exact absurd h (List.not_mem_nil f)

lemma assignInitialPoints_tetra :
    assignInitialPoints tetraPts [0, 1, 2, 3] tetraOriented = tetraOriented := by
  unfold assignInitialPoints
  rw [show tetraPts.length = 4 from rfl]
  rw [show List.range 4 = [0, 1, 2, 3] from by decide]
  simp

lemma getFurthestPoint_empty (f : HullFace) (points : List Vec3) (h : f.pts = []) :
    getFurthestPoint f points = (none, 0) := by
  unfold getFurthestPoint
  rw [h]
  rfl

lemma scanBest_fold_empty (points : List Vec3) :
    ∀ faces : List HullFace, (∀ f ∈ faces, f.pts = []) →
      List.foldl (fun best f =>
        let fp := getFurthestPoint f points
        if fp.2 > best.2.2 then (some f.faceId, fp.1, fp.2) else best)
        ((none, none, 0) : Option ℕ × Option ℕ × ℝ) faces = (none, none, 0) := by
  intro faces
  induction faces with
  | nil => intro _; rfl
  | cons f fs ih =>
      intro h
      rw [List.foldl_cons]
      dsimp only
      rw [getFurthestPoint_empty f points (h f (List.mem_cons_self f fs))]
      dsimp only
      rw [if_neg (by norm_num : ¬ ((0 : ℝ) > 0))]
      exact ih (fun g hg => h g (List.mem_cons_of_mem f hg))

lemma scanBest_of_empty (points : List Vec3) (faces : List HullFace)
    (h : ∀ f ∈ faces, f.pts = []) : scanBest points faces = (none, none, 0) := by
  unfold scanBest
  exact scanBest_fold_empty points faces h

/-- When no face has assigned points, the expansion step takes the break. -/
lemma expandStep_break (points : List Vec3) (faces : List HullFace) (nextId : ℕ)
    (h : ∀ f ∈ faces, f.pts = []) :
    expandStep points faces nextId = (faces, nextId, true) := by
  unfold expandStep
  simp only [scanBest_of_empty points faces h]
  rw [if_pos (Or.inl trivial)]

/-- The expansion loop terminates immediately when no face has points. -/
lemma expandLoop_break (points : List Vec3) (fuel : ℕ) (faces : List HullFace)
    (nextId : ℕ) (h : ∀ f ∈ faces, f.pts = []) :
    expandLoop points (fuel + 1) faces nextId = (faces, nextId) := by
  conv_lhs => rw [expandLoop]
  rw [expandStep_break points faces nextId h]
  rfl

lemma hullFacesAfterLoop_tetra : hullFacesAfterLoop tetraPts = tetraOriented := by
  unfold hullFacesAfterLoop
  rw [hullSeedIndices_tetra]
  dsimp only
  rw [seedFaces_tetra, orientSeedFaces_tetra, assignInitialPoints_tetra]
  rw [show tetraPts.length * 3 = 12 from rfl]
  rw [show (12 : ℕ) = 11 + 1 from rfl]
  rw [expandLoop_break tetraPts 11 tetraOriented 4 tetraOriented_pts_empty]

/-- The hull returned for the tetrahedron: the 4 input points (sorted ids
0-3) and the 4 seed faces in their stored vertex order. -/
noncomputable def tetraHull : HullResult :=
  ⟨[0, 0, 0, 1, 0, 0, 0, 12, 0, 0, 3, 4],
   [0, 1, 2, 2, 0, 3, 3, 0, 1, 3, 1, 2]⟩

lemma extractResult_tetra : extractResult tetraPts tetraOriented = tetraHull := by
  unfold extractResult
  rw [show vertexListOf tetraOriented = [0, 1, 2, 3] from rfl]
  rfl

lemma quickHull3D_tetra : quickHull3D tetraPts = tetraHull := by
  unfold quickHull3D
  rw [if_neg (by norm_num [tetraPts])]
  rw [uniqueExtremes_tetra]
  rw [if_neg (by norm_num)]
  rw [hullFacesAfterLoop_tetra]
  have hemp : tetraOriented.isEmpty = false := rfl
  rw [if_neg (by simp [hemp])]
  rw [extractResult_tetra]
  rw [if_neg (by norm_num [tetraHull])]

/-- Vertex i of a returned mesh (the xyz triple at flat offset 3i). -/
noncomputable def meshVertex (r : HullResult) (i : ℕ) : Vec3 :=
  ⟨r.vertices.getD (3 * i) 0, r.vertices.getD (3 * i + 1) 0, r.vertices.getD (3 * i + 2) 0⟩

/-- The k-th vertex index of triangle t of a returned mesh. -/
def meshTriIdx (r : HullResult) (t k : ℕ) : ℕ := r.faces.getD (3 * t + k) 0

/-- The normal of triangle t of a returned mesh, computed from its stored
vertex order. -/
noncomputable def meshTriNormal (r : HullResult) (t : ℕ) : Vec3 :=
  vec3Normalize (vec3Cross
    (vec3Sub (meshVertex r (meshTriIdx r t 1)) (meshVertex r (meshTriIdx r t 0)))
    (vec3Sub (meshVertex r (meshTriIdx r t 2)) (meshVertex r (meshTriIdx r t 0))))

/-- The centroid of triangle t of a returned mesh. -/
noncomputable def meshTriCentroid (r : HullResult) (t : ℕ) : Vec3 :=
  let a := meshVertex r (meshTriIdx r t 0)
  let b := meshVertex r (meshTriIdx r t 1)
  let c := meshVertex r (meshTriIdx r t 2)
  ⟨(a.x + b.x + c.x) / 3, (a.y + b.y + c.y) / 3, (a.z + b.z + c.z) / 3⟩

/-- The claimed mesh-level orientation property: every triangle normal n
satisfies (v - centroid) . n >= -eps for every other hull vertex v. -/
def outwardNormalProp (r : HullResult) (eps : ℝ) : Prop :=
  ∀ t, t < r.faces.length / 3 → ∀ v, v < r.vertices.length / 3 →
    v ≠ meshTriIdx r t 0 → v ≠ meshTriIdx r t 1 → v ≠ meshTriIdx r t 2 →
    vec3Dot (vec3Sub (meshVertex r v) (meshTriCentroid r t)) (meshTriNormal r t) ≥ -eps

/-- The claimed seed-orientation property: each of the four seed faces, after
the orientation pass, has its normal pointing away from the centroid of the
seed tetrahedron. -/
def seedOutwardProp (points : List Vec3) : Prop :=
  let s := hullSeedIndices points
  let p0 := getP points s.1
  let p1 := getP points s.2.1
  let p2 := getP points s.2.2.1
  let p3 := getP points s.2.2.2
  let tc : Vec3 := ⟨(p0.x + p1.x + p2.x + p3.x) / 4, (p0.y + p1.y + p2.y + p3.y) / 4,
                    (p0.z + p1.z + p2.z + p3.z) / 4⟩
  ∀ f ∈ orientSeedFaces points (seedFaces points s.1 s.2.1 s.2.2.1 s.2.2.2),
    vec3Dot (vec3Sub (faceCentroid f points) tc) f.normal ≥ 0

/-- The full C6 claim: seed faces oriented away from the tetrahedron
centroid, and the returned mesh uniformly oriented within eps = 1e-9. -/
def hullOutwardClaim (points : List Vec3) : Prop :=
  seedOutwardProp points ∧ outwardNormalProp (quickHull3D points) 1e-9

lemma tetraHull_dot_eval :
    vec3Dot (vec3Sub (meshVertex tetraHull 1) (meshTriCentroid tetraHull 1))
      (meshTriNormal tetraHull 1) = -1 := by
  have hn : meshTriNormal tetraHull 1 = ⟨-1, 0, 0⟩ := by
    unfold meshTriNormal
    rw [show meshTriIdx tetraHull 1 0 = 2 from rfl,
        show meshTriIdx tetraHull 1 1 = 0 from rfl,
        show meshTriIdx tetraHull 1 2 = 3 from rfl]
    rw [show meshVertex tetraHull 2 = (⟨0, 12, 0⟩ : Vec3) from rfl,
        show meshVertex tetraHull 0 = (⟨0, 0, 0⟩ : Vec3) from rfl,
        show meshVertex tetraHull 3 = (⟨0, 3, 4⟩ : Vec3) from rfl]
    have hcr : vec3Cross (vec3Sub ⟨0, 0, 0⟩ ⟨0, 12, 0⟩) (vec3Sub ⟨0, 3, 4⟩ ⟨0, 12, 0⟩)
        = (⟨-48, 0, 0⟩ : Vec3) := by
      norm_num [vec3Cross, vec3Sub, Vec3.mk.injEq]
    rw [hcr, vec3Normalize_eval ⟨-48, 0, 0⟩ 48 (by norm_num)
      (by show (-48 : ℝ) * -48 + 0 * 0 + 0 * 0 = 48 * 48; norm_num)]
    rw [Vec3.mk.injEq]
    norm_num
  have hc : meshTriCentroid tetraHull 1 = ⟨0, 5, 4 / 3⟩ := by
    unfold meshTriCentroid
    rw [show meshTriIdx tetraHull 1 0 = 2 from rfl,
        show meshTriIdx tetraHull 1 1 = 0 from rfl,
        show meshTriIdx tetraHull 1 2 = 3 from rfl]
    rw [show meshVertex tetraHull 2 = (⟨0, 12, 0⟩ : Vec3) from rfl,
        show meshVertex tetraHull 0 = (⟨0, 0, 0⟩ : Vec3) from rfl,
        show meshVertex tetraHull 3 = (⟨0, 3, 4⟩ : Vec3) from rfl]
    rw [Vec3.mk.injEq]
    norm_num
  rw [show meshVertex tetraHull 1 = (⟨1, 0, 0⟩ : Vec3) from rfl, hc, hn]
  unfold vec3Sub vec3Dot
  norm_num

/-- C6 counterexample: on the tetrahedron (0,0,0), (1,0,0), (0,12,0),
(0,3,4) the orientation pass leaves face 0 pointing at the interior (only
faces 1-3 are flipped, and against the centroid of face 0, not of the
tetrahedron), and the returned mesh violates the claimed inequality
(v - centroid) . n >= -1e-9: triangle 1 = (2,0,3) has normal (-1,0,0) and
hull vertex 1 = (1,0,0) gives dot product -1. -/
theorem quickHull3D_outward_counterexample : ¬ hullOutwardClaim tetraPts := by
  intro h
  have hb := h.2
  rw [quickHull3D_tetra] at hb
  unfold outwardNormalProp at hb
  have key := hb 1 (by norm_num [tetraHull]) 1 (by norm_num [tetraHull])
    (by rw [show meshTriIdx tetraHull 1 0 = 2 from rfl]; norm_num)
    (by rw [show meshTriIdx tetraHull 1 1 = 0 from rfl]; norm_num)
    (by rw [show meshTriIdx tetraHull 1 2 = 3 from rfl]; norm_num)
  rw [tetraHull_dot_eval] at key
  norm_num at key

/-- The default face used for out-of-range list reads in the statements. -/
noncomputable def hullFaceDefault : HullFace := ⟨0, 0, 0, 0, ⟨0, 0, 1⟩, 0, []⟩

/-- What the orientation pass actually guarantees for seed face i: after the
pass, its normal does not point towards the centroid of face 0. -/
def orientedAway (points : List Vec3) (i0 i1 i2 i3 i : ℕ) : Prop :=
  vec3Dot
    (vec3Sub
      (faceCentroid ((orientSeedFaces points (seedFaces points i0 i1 i2 i3)).getD 0
        hullFaceDefault) points)
      (faceCentroid ((orientSeedFaces points (seedFaces points i0 i1 i2 i3)).getD i
        hullFaceDefault) points))
    ((orientSeedFaces points (seedFaces points i0 i1 i2 i3)).getD i hullFaceDefault).normal
    ≤ 0

/-- C6 amended: the orientation pass orients seed faces 1-3 away from the
centroid of face 0 (not of the tetrahedron), and face 0 itself is never
re-oriented; for every input and seed indices, each of faces 1-3 ends with
its normal not pointing towards the centroid of face 0. -/
theorem orientSeedFaces_away_from_face0 (points : List Vec3) (i0 i1 i2 i3 : ℕ) :
    orientedAway points i0 i1 i2 i3 1 ∧ orientedAway points i0 i1 i2 i3 2 ∧
      orientedAway points i0 i1 i2 i3 3 := by
  unfold orientedAway
  unfold seedFaces
  rw [orientSeedFaces_quad]
  refine ⟨?_, ?_, ?_⟩
  · simp only [List.getD_cons_zero, List.getD_cons_succ]
    by_cases h : vec3Dot (vec3Sub (faceCentroid (mkHullFace points 0 i0 i1 i2) points)
        (faceCentroid (mkHullFace points 1 i0 i2 i3) points))
        (mkHullFace points 1 i0 i2 i3).normal > 0
    · rw [if_pos h, faceCentroid_flip, flipFace_normal_dot]
      linarith
    · rw [if_neg h]
      exact le_of_not_lt h
  · simp only [List.getD_cons_zero, List.getD_cons_succ]
    by_cases h : vec3Dot (vec3Sub (faceCentroid (mkHullFace points 0 i0 i1 i2) points)
        (faceCentroid (mkHullFace points 2 i0 i3 i1) points))
        (mkHullFace points 2 i0 i3 i1).normal > 0
    · rw [if_pos h, faceCentroid_flip, flipFace_normal_dot]
      linarith
    · rw [if_neg h]
      exact le_of_not_lt h
  · simp only [List.getD_cons_zero, List.getD_cons_succ]
    by_cases h : vec3Dot (vec3Sub (faceCentroid (mkHullFace points 0 i0 i1 i2) points)
        (faceCentroid (mkHullFace points 3 i1 i3 i2) points))
        (mkHullFace points 3 i1 i3 i2).normal > 0
    · rw [if_pos h, faceCentroid_flip, flipFace_normal_dot]
      linarith
    · rw [if_neg h]
      exact le_of_not_lt h

end RobotAnalyzer
